import Mathlib

/-!
Verification development for the deep-research engine: a shallow
embedding, in Lean 4, of the recursive research-tree builder
(src/research.ts), the tree flattening step (src/research.ts), the
source deduplication step (src/workflow.ts), and the citation
validation pass (src/report.ts), together with theorems settling the
specification claims about them.

Modelling conventions:
 - JavaScript strings are modelled as `String` where only identity
   matters (urls, queries, titles, insight texts) and as `List Char`
   where character-level slicing occurs (result content, snippets,
   report prose).
 - JavaScript numbers holding scores are modelled as `ℚ`; numbers
   holding counts and depths as `Int` (the code never validates them,
   so negative values are representable); digit-run values parsed by
   `parseInt` as `ℕ` (the regex admits only unsigned digit runs).
 - A JavaScript object used as a string-keyed map, and the JS `Map`,
   are modelled as insertion-ordered association lists with
   replace-in-place update, which is exactly the observable iteration
   and lookup behaviour of both.
 - The external capabilities (Exa search and the structured-output AI
   calls) are modelled as pure oracle functions supplied as a
   parameter: one oracle valuation represents the responses observed
   during one execution in which every external call succeeds.
-/

/- ===================== JavaScript primitives ===================== -/

/-- The JavaScript `%` operator on integers: a remainder truncated
toward zero (`Int.tmod`), so `(-1) % 3` is `-1`, not `2`. -/
def jsRemainder (a b : ℤ) : ℤ := Int.tmod a b

/-- The JavaScript `x || d` idiom applied to an optional string: `d`
replaces both an absent value and the empty string (both falsy). -/
def jsOrString (x : Option String) (d : String) : String :=
  match x with
  | none => d
  | some s => if s = "" then d else s

/-- The JavaScript `x || d` idiom applied to optional text modelled as
a character list. -/
def jsOrChars (x : Option (List Char)) (d : List Char) : List Char :=
  match x with
  | none => d
  | some s => if s = [] then d else s

/- ===================== Citation validation (src/report.ts 107-134) ===================== -/

/-- One segment of the report text as seen by the global regex scan of
report.ts line 116 (pattern: an open bracket, one or more digits, a
close bracket): either a single character outside every match, or the
digit run captured by one matched citation marker. -/
inductive CitationSeg where
  | lit (c : Char)
  | marker (digits : List Char)
deriving DecidableEq, Repr

/-- Scanner of the global regex pass of report.ts line 116: walking the
text left to right, at an open bracket the regex matches when the
maximal digit run after it is nonempty and immediately followed by a
close bracket, and the scan resumes after that close bracket; otherwise
the current character lies outside every match and the scan advances by
one character. This is the standard leftmost-match semantics of a
global `String.replace`. -/
def citationSegs : List Char → List CitationSeg
  | [] => []
  | c :: cs =>
    if c = '[' ∧ cs.takeWhile Char.isDigit ≠ [] ∧ (cs.dropWhile Char.isDigit).head? = some ']' then
      CitationSeg.marker (cs.takeWhile Char.isDigit) :: citationSegs (cs.dropWhile Char.isDigit).tail
    else CitationSeg.lit c :: citationSegs cs
termination_by l => l.length
decreasing_by
  all_goals simp [List.length_cons]
  have h1 : (cs.dropWhile Char.isDigit).length ≤ cs.length :=
    (List.dropWhile_sublist Char.isDigit (l := cs)).length_le
  omega

/-- The text a segment stands for: a literal character, or the matched
marker text (open bracket, digits, close bracket). -/
def segText : CitationSeg → List Char
  | CitationSeg.lit c => [c]
  | CitationSeg.marker ds => '[' :: ds ++ [']']

/-- Numeric value of a captured digit run, as `parseInt(number, 10)`
computes it at report.ts line 121. -/
def digitsToNat (ds : List Char) : ℕ :=
  ds.foldl (fun n c => 10 * n + (c.toNat - 48)) 0

/-- Decimal digit characters of a natural number, most significant
first: the way JavaScript stringifies a nonnegative integer inside a
template literal (report.ts line 131). -/
def natToChars (n : ℕ) : List Char :=
  if h : n < 10 then [Char.ofNat (48 + n)]
  else natToChars (n / 10) ++ [Char.ofNat (48 + n % 10)]
termination_by n
decreasing_by
  omega

/-- Decimal rendering of an integer, with a leading minus sign when
negative, as JavaScript stringifies an integral number. -/
def intToChars (k : ℤ) : List Char :=
  if k < 0 then '-' :: natToChars k.natAbs else natToChars k.toNat

/-- The replacement number computed at report.ts line 127 for an
out-of-range citation number `n`:
`((Math.abs(citationNum) - 1) % maxCitationNumber) + 1`, with `%` the
JavaScript truncated remainder. -/
def repairCitation (maxC : ℕ) (n : ℕ) : ℤ :=
  jsRemainder (|(n : ℤ)| - 1) (maxC : ℤ) + 1

/-- The replacement callback of report.ts lines 120-134 applied to one
segment: characters outside matches pass through; a matched number in
range `1..maxC` returns the match unchanged; any other matched number
is replaced by the repaired citation marker. -/
def applyCitationSeg (maxC : ℕ) : CitationSeg → List Char
  | CitationSeg.lit c => [c]
  | CitationSeg.marker ds =>
    let citationNum := digitsToNat ds
    if maxC < citationNum ∨ citationNum < 1 then
      '[' :: intToChars (repairCitation maxC citationNum) ++ [']']
    else '[' :: ds ++ [']']

/-- The citation validation pass of report.ts lines 116-134:
`validatedReport.replace(citationRegex, callback)`, i.e. decompose the
text into literal characters and matches, apply the callback to each
match, and concatenate. -/
def validateCitations (maxC : ℕ) (s : List Char) : List Char :=
  ((citationSegs s).map (applyCitationSeg maxC)).flatten

/-- The citation numbers matched in a text, in order of appearance
(the values the code accumulates in `allCitations`). -/
def markersOf (s : List Char) : List ℕ :=
  (citationSegs s).filterMap fun seg =>
    match seg with
    | CitationSeg.marker ds => some (digitsToNat ds)
    | CitationSeg.lit _ => none

/-- The replacement number as the specification words it:
`r = ((|n| - 1) mod maxCitationNumber) + 1` with `mod` the mathematical
(always nonnegative for a positive modulus) remainder. Stated from the
spec's words for comparison against `repairCitation`, which is
translated from the code. -/
def specRepairCitation (maxC : ℕ) (n : ℕ) : ℤ :=
  (|(n : ℤ)| - 1) % (maxC : ℤ) + 1

/-- The per-segment citation rule as the specification words it, using
`specRepairCitation` in place of the code's truncated-remainder
computation. -/
def specApplyCitationSeg (maxC : ℕ) : CitationSeg → List Char
  | CitationSeg.lit c => [c]
  | CitationSeg.marker ds =>
    let citationNum := digitsToNat ds
    if maxC < citationNum ∨ citationNum < 1 then
      '[' :: intToChars (specRepairCitation maxC citationNum) ++ [']']
    else '[' :: ds ++ [']']

/-- The whole citation validation pass as the specification words it. -/
def specValidateCitations (maxC : ℕ) (s : List Char) : List Char :=
  ((citationSegs s).map (specApplyCitationSeg maxC)).flatten

/-- The value-level transformation the code applies to a matched
citation number when `maxC ≥ 1`: numbers in range are kept; numbers
above the range cycle into `1..maxC`; the number `0` maps to `0`
whenever `maxC ≥ 2` (the truncated remainder of `-1` by `maxC` is `-1`)
and to `1` when `maxC = 1` (the truncated remainder of `-1` by `1` is
`0`). -/
def jsCitationRule (maxC : ℕ) (n : ℕ) : ℕ :=
  if maxC < n ∨ n < 1 then
    (if n = 0 then (if maxC = 1 then 1 else 0) else (n - 1) % maxC + 1)
  else n

/-- The transformation the validation pass applies to one scanned
segment, described at segment level: literal characters are untouched;
a marker's digit run is kept verbatim when its value is in range, and
otherwise replaced by the decimal digits of the repaired number. -/
def reSegRule (maxC : ℕ) : CitationSeg → CitationSeg
  | CitationSeg.lit c => CitationSeg.lit c
  | CitationSeg.marker ds =>
    CitationSeg.marker
      (if maxC < digitsToNat ds ∨ digitsToNat ds < 1 then
        intToChars (repairCitation maxC (digitsToNat ds))
      else ds)

/- ===================== Data model (src/types.ts) ===================== -/

/-- Lightweight search result stored on nodes (types.ts): title with the
"Untitled" default already applied, url, content truncated to 300
characters, and the optional raw provider score. -/
structure LightweightSearchResult where
  title : String
  url : String
  snippet : List Char
  score : Option ℚ
deriving DecidableEq, Repr

/-- Raw Exa search result as the engine consumes it: `title` may be
null, `text` and `score` may be absent. -/
structure RawSearchResult where
  title : Option String
  url : String
  text : Option (List Char)
  score : Option ℚ
deriving DecidableEq, Repr

/-- Structured output of one relevance check (types.ts). -/
structure RelevanceCheckResult where
  isRelevant : Bool
  reasoning : String
  relevanceScore : ℚ
deriving DecidableEq, Repr

/-- Research configuration (types.ts): all numeric fields are plain
JavaScript numbers, never validated by the engine, and
`concurrencyLimit` is optional. -/
structure ResearchConfig where
  maxDepth : Int
  resultsPerQuery : Int
  followUpQuestionsPerNode : Int
  concurrencyLimit : Option Int
deriving DecidableEq, Repr

/-- Research tree node (types.ts). Recursive in `children`, hence an
inductive type with explicit projections below. -/
inductive ResearchNode where
  | mk (query : String)
      (searchResults : List LightweightSearchResult)
      (relevantResults : List LightweightSearchResult)
      (relevanceScores : List (String × ℚ))
      (insights : List String)
      (followUpQuestions : List String)
      (depth : Int)
      (children : List ResearchNode)

def ResearchNode.query : ResearchNode → String
  | ResearchNode.mk q _ _ _ _ _ _ _ => q

def ResearchNode.searchResults : ResearchNode → List LightweightSearchResult
  | ResearchNode.mk _ s _ _ _ _ _ _ => s

def ResearchNode.relevantResults : ResearchNode → List LightweightSearchResult
  | ResearchNode.mk _ _ r _ _ _ _ _ => r

def ResearchNode.relevanceScores : ResearchNode → List (String × ℚ)
  | ResearchNode.mk _ _ _ sc _ _ _ _ => sc

def ResearchNode.insights : ResearchNode → List String
  | ResearchNode.mk _ _ _ _ i _ _ _ => i

def ResearchNode.followUpQuestions : ResearchNode → List String
  | ResearchNode.mk _ _ _ _ _ f _ _ => f

def ResearchNode.depth : ResearchNode → Int
  | ResearchNode.mk _ _ _ _ _ _ d _ => d

def ResearchNode.children : ResearchNode → List ResearchNode
  | ResearchNode.mk _ _ _ _ _ _ _ c => c

/-- Flattened source entry (types.ts). -/
structure SourceInfo where
  title : String
  url : String
  snippet : List Char
  query : String
  relevanceScore : ℚ
deriving DecidableEq, Repr

/-- Flattened summary of one research tree (types.ts). -/
structure ResearchSummary where
  originalTopic : String
  totalNodesExplored : ℕ
  totalRelevantResults : ℕ
  allInsights : List String
  allSources : List SourceInfo
  researchTree : ResearchNode

/- ===================== String-keyed maps ===================== -/

/-- Write to a string-keyed JavaScript object or `Map`: an existing key
keeps its insertion position and receives the new value; a new key is
appended at the end. -/
def mapSet {α : Type} (m : List (String × α)) (k : String) (v : α) : List (String × α) :=
  match m with
  | [] => [(k, v)]
  | (k2, v2) :: rest => if k2 = k then (k, v) :: rest else (k2, v2) :: mapSet rest k v

/-- Read a key from a string-keyed JavaScript object or `Map`:
`none` models `undefined`. -/
def mapGet {α : Type} (m : List (String × α)) (k : String) : Option α :=
  match m with
  | [] => none
  | (k2, v2) :: rest => if k2 = k then some v2 else mapGet rest k

/- ===================== Research engine (src/research.ts) ===================== -/

/-- Conversion of a raw result to its stored lightweight form
(research.ts lines 313-320): title defaulted through `||`, url copied,
text defaulted to empty and truncated to its first 300 characters,
provider score copied. -/
def toLightweightResult (result : RawSearchResult) : LightweightSearchResult :=
  { title := jsOrString result.title "Untitled"
    url := result.url
    snippet := (jsOrChars result.text []).take 300
    score := result.score }

/-- Oracle valuation for the external capabilities used by one
execution of the engine in which every external call succeeds: the Exa
search (research.ts line 497), the relevance classifier (line 348), the
insight synthesis model call (line 401), and the follow-up question
model call (line 443). Arguments mirror the information each call is
given. -/
structure ExternalCalls where
  searchAndContents : String → Int → List RawSearchResult
  checkRelevance : RawSearchResult → String → String → RelevanceCheckResult
  generateInsightsCall : List RawSearchResult → String → String → List String
  generateFollowUpQuestionsCall : ResearchNode → String → Int → List String

/-- The `generateInsights` wrapper (research.ts lines 366-372): returns
the empty list without any model call when given no results. -/
def generateInsights (o : ExternalCalls) (results : List RawSearchResult)
    (topic query : String) : List String :=
  if results.length = 0 then [] else o.generateInsightsCall results topic query

/-- Score recording of research.ts lines 539-542: iterate the stored
lightweight results in order, assigning each check's score under the
result's url; a later duplicate url overwrites the earlier score. -/
def recordScores (searchResults : List LightweightSearchResult)
    (relevanceChecks : List RelevanceCheckResult) : List (String × ℚ) :=
  (searchResults.zip relevanceChecks).foldl
    (fun m p => mapSet m p.1.url p.2.relevanceScore) []

/-- Relevance filter of research.ts lines 545-548: keep the raw results
whose check at the same index reported relevant with score at least 70. -/
def filterRelevant (fullResults : List RawSearchResult)
    (relevanceChecks : List RelevanceCheckResult) : List RawSearchResult :=
  ((fullResults.zip relevanceChecks).filter
    (fun p => p.2.isRelevant && decide ((70 : ℚ) ≤ p.2.relevanceScore))).map Prod.fst

/-- The recursive research tree builder `performDeepResearch`
(research.ts lines 471-625), with the external calls supplied by the
oracle valuation `o`. Stage order follows the source: search, convert
to lightweight, score relevance, record scores, filter, then insights,
then follow-up questions (the node handed to the question call carries
the insights but no questions or children yet), then one recursive call
per follow-up question at depth one deeper. -/
def performDeepResearch (o : ExternalCalls) (query topic : String)
    (config : ResearchConfig) (currentDepth : Int) : ResearchNode :=
  let fullResults := o.searchAndContents query config.resultsPerQuery
  let searchResults := fullResults.map toLightweightResult
  let relevanceChecks := fullResults.map (fun result => o.checkRelevance result topic query)
  let relevanceScores := recordScores searchResults relevanceChecks
  let relevantFullResults := filterRelevant fullResults relevanceChecks
  let relevantResults := relevantFullResults.map toLightweightResult
  if relevantFullResults.length > 0 then
    let insights := generateInsights o relevantFullResults topic query
    if h : currentDepth < config.maxDepth - 1 then
      let nodeBeforeQuestions := ResearchNode.mk query searchResults relevantResults
        relevanceScores insights [] currentDepth []
      let followUpQuestions := o.generateFollowUpQuestionsCall nodeBeforeQuestions topic
        config.followUpQuestionsPerNode
      let children :=
        if followUpQuestions.length > 0 then
          followUpQuestions.map (fun followUpQuery =>
            performDeepResearch o followUpQuery topic config (currentDepth + 1))
        else []
      ResearchNode.mk query searchResults relevantResults relevanceScores insights
        followUpQuestions currentDepth children
    else
      ResearchNode.mk query searchResults relevantResults relevanceScores insights
        [] currentDepth []
  else
    ResearchNode.mk query searchResults relevantResults relevanceScores []
      [] currentDepth []
termination_by (config.maxDepth - 1 - currentDepth).toNat
decreasing_by
  omega

/- ===================== Tree flattening (src/research.ts 634-676) ===================== -/

/-- The `SourceInfo` entries one node contributes (research.ts lines
650-659): one per relevant result, scored by looking the url up in the
node's score map with `|| 0` as the fallback. -/
def nodeSources (node : ResearchNode) : List SourceInfo :=
  node.relevantResults.map (fun result =>
    { title := result.title
      url := result.url
      snippet := result.snippet
      query := node.query
      relevanceScore := (mapGet node.relevanceScores result.url).getD 0 })

/-- Mutable accumulator of `summarizeResearch` (research.ts lines
635-638). -/
structure FlattenAcc where
  totalNodes : ℕ
  totalRelevantResults : ℕ
  allInsights : List String
  allSources : List SourceInfo
deriving Repr

mutual

/-- The recursive collector `collectFromNode` (research.ts lines
643-664): count the node, add its relevant-result count, append its
insights and sources, then visit the children in order. -/
def collectFromNode (acc : FlattenAcc) (node : ResearchNode) : FlattenAcc :=
  let acc1 : FlattenAcc :=
    { totalNodes := acc.totalNodes + 1
      totalRelevantResults := acc.totalRelevantResults + node.relevantResults.length
      allInsights := acc.allInsights ++ node.insights
      allSources := acc.allSources ++ nodeSources node }
  collectChildren acc1 node.children
termination_by sizeOf node
decreasing_by
  all_goals cases node with
  | mk q s r sc i f d c => simp [ResearchNode.children]

/-- The `node.children.forEach(collectFromNode)` loop of research.ts
line 663. -/
def collectChildren (acc : FlattenAcc) : List ResearchNode → FlattenAcc
  | [] => acc
  | child :: rest => collectChildren (collectFromNode acc child) rest
termination_by l => sizeOf l
decreasing_by
  all_goals simp <;> omega

end

/-- The tree flattener `summarizeResearch` (research.ts lines 634-676). -/
def summarizeResearch (topic : String) (researchTree : ResearchNode) : ResearchSummary :=
  let final := collectFromNode ⟨0, 0, [], []⟩ researchTree
  { originalTopic := topic
    totalNodesExplored := final.totalNodes
    totalRelevantResults := final.totalRelevantResults
    allInsights := final.allInsights
    allSources := final.allSources
    researchTree := researchTree }

mutual

/-- Depth-first pre-order listing of the nodes of a research tree: the
node itself, then the nodes of each child subtree in child order. -/
def allNodes (node : ResearchNode) : List ResearchNode :=
  node :: allNodesList node.children
termination_by sizeOf node
decreasing_by
  all_goals cases node with
  | mk q s r sc i f d c => simp [ResearchNode.children]

/-- Pre-order listing concatenated over a list of sibling subtrees. -/
def allNodesList : List ResearchNode → List ResearchNode
  | [] => []
  | child :: rest => allNodes child ++ allNodesList rest
termination_by l => sizeOf l
decreasing_by
  all_goals simp <;> omega

end

/- ===================== Source deduplication (src/workflow.ts 203-219) ===================== -/

/-- One step of the source deduplication loop of workflow.ts lines
209-214: a url not yet in the map is inserted; an already present url
is overwritten only when the new entry's relevance score is strictly
greater than the currently kept one. -/
def dedupStep (sourceMap : List (String × SourceInfo)) (source : SourceInfo) :
    List (String × SourceInfo) :=
  match mapGet sourceMap source.url with
  | none => mapSet sourceMap source.url source
  | some existing =>
    if existing.relevanceScore < source.relevanceScore then
      mapSet sourceMap source.url source
    else sourceMap

/-- The comparator of workflow.ts line 218,
`(a, b) => b.relevanceScore - a.relevanceScore`, as the boolean
"a may come before b" relation of a descending stable sort. -/
def scoreDescLE (a b : SourceInfo) : Bool :=
  decide (b.relevanceScore ≤ a.relevanceScore)

/-- Source deduplication and ranking of workflow.ts lines 207-219: fold
all sources through the keep-strictly-greater map, take the map's
values in key-insertion order, and stable-sort them by relevance score
descending (JavaScript's `Array.prototype.sort` is stable; `mergeSort`
is the same stable sort). -/
def dedupSources (allSources : List SourceInfo) : List SourceInfo :=
  ((allSources.foldl dedupStep []).map Prod.snd).mergeSort scoreDescLE

/-- Spec-side tie-breaking fold of section 4.7 of the specification: of
two entries for the same url, keep the one with the strictly greater
relevance score, the earlier entry winning ties. Folding it over a url's
occurrence group yields the group's first entry of maximal score. -/
def pickBetter (best source : SourceInfo) : SourceInfo :=
  if best.relevanceScore < source.relevanceScore then source else best

/-- Spec-side key order of section 4.7: the distinct urls of the
flattened source list, in order of first occurrence. -/
def firstOccurrenceUrls (allSources : List SourceInfo) : List String :=
  allSources.foldl
    (fun keys source => if source.url ∈ keys then keys else keys ++ [source.url]) []

/- ===================== Concurrency model (p-limit usage in src/research.ts) ===================== -/

/-!
Every invocation of `performDeepResearch` creates its own fresh
`pLimit(concurrencyLimit)` pool (research.ts line 520); no pool object
is passed between invocations. That one invocation's pool admits the
invocation's relevance checks (lines 524-532) and, later, the
invocation's direct recursive `performDeepResearch` calls (lines
589-604). A recursive call is awaited inside the function passed to
`limit(...)`, so a child build call occupies one slot of its parent's
pool for its whole duration, while the child's own operations draw on
the child's own fresh pool.

The timing model below captures the smallest execution able to settle
the tree-wide claim: `concurrencyLimit = 1`, `maxDepth = 2`, a root
node whose single search result is relevant and which generates one
follow-up question, and a child node with a single search result. The
operations named by the claim are the root's relevance check and the
child build call (both admitted by the root invocation's pool) and the
child's relevance check (admitted by the child invocation's own pool).
Each operation is given a half-open activity interval; a timing is
valid when it satisfies the ordering the code's awaits impose and the
capacity of each pool.
-/

/-- Half-open activity interval of one asynchronous operation: the
operation is in flight from `start` (inclusive) to `stop` (exclusive). -/
structure OpInterval where
  start : ℕ
  stop : ℕ
deriving DecidableEq, Repr

/-- The operation is in flight at instant `t`. -/
def activeAt (i : OpInterval) (t : ℕ) : Prop := i.start ≤ t ∧ t < i.stop

instance (i : OpInterval) (t : ℕ) : Decidable (activeAt i t) := by
  unfold activeAt
  infer_instance

/-- The configured concurrency limit of the scenario
(`config.concurrencyLimit = 1`). -/
def scenarioConcurrencyLimit : ℕ := 1

/-- Timing of the three relevance-scoring-or-recursive-build operations
of the two-node scenario: the root invocation's relevance check and the
child build call, both admitted by the root invocation's pool, and the
child invocation's relevance check, admitted by the child invocation's
own pool. -/
structure ScenarioTiming where
  rootScore : OpInterval
  childBuild : OpInterval
  childScore : OpInterval
deriving DecidableEq, Repr

/-- The constraints the code imposes on a timing of the scenario:

* every operation takes some positive time;
* the root's relevance checks are awaited (`Promise.all`, line 536)
  before insights, questions and follow-up research, so the root's
  relevance check ends before the child build call starts;
* the child build call is awaited inside the closure holding its
  parent-pool slot (lines 590-603), and the child's relevance check is
  awaited inside the child build call (lines 524-536 of the recursive
  invocation), so the child check's interval lies inside the child
  build call's interval;
* the root invocation's pool has capacity `scenarioConcurrencyLimit = 1`,
  so its two admitted operations never overlap: one stops before the
  other starts (the child invocation's pool also has capacity 1 but
  admits only one operation here, which constrains nothing). -/
def ValidScenarioTiming (tm : ScenarioTiming) : Prop :=
  tm.rootScore.start < tm.rootScore.stop ∧
  tm.childBuild.start < tm.childBuild.stop ∧
  tm.childScore.start < tm.childScore.stop ∧
  tm.rootScore.stop ≤ tm.childBuild.start ∧
  tm.childBuild.start ≤ tm.childScore.start ∧
  tm.childScore.stop ≤ tm.childBuild.stop ∧
  (tm.rootScore.stop ≤ tm.childBuild.start ∨ tm.childBuild.stop ≤ tm.rootScore.start)

instance (tm : ScenarioTiming) : Decidable (ValidScenarioTiming tm) := by
  unfold ValidScenarioTiming
  infer_instance

/-- Number of relevance-scoring-or-recursive-build operations in flight
tree-wide at instant `t`. -/
def opsInFlight (tm : ScenarioTiming) (t : ℕ) : ℕ :=
  (if activeAt tm.rootScore t then 1 else 0) +
  (if activeAt tm.childBuild t then 1 else 0) +
  (if activeAt tm.childScore t then 1 else 0)

/-- A concrete realizable schedule of the scenario: the root's check
runs first; the child build call then holds the root pool's only slot
while the child's own check runs inside it on the child's own pool. -/
def witnessTiming : ScenarioTiming :=
  { rootScore := { start := 0, stop := 1 }
    childBuild := { start := 1, stop := 4 }
    childScore := { start := 2, stop := 3 } }

/- ===================== Basic lemmas ===================== -/

@[simp] theorem ResearchNode.query_mk (q : String) (s r : List LightweightSearchResult)
    (sc : List (String × ℚ)) (i f : List String) (d : Int) (c : List ResearchNode) :
    (ResearchNode.mk q s r sc i f d c).query = q := rfl

@[simp] theorem ResearchNode.searchResults_mk (q : String) (s r : List LightweightSearchResult)
    (sc : List (String × ℚ)) (i f : List String) (d : Int) (c : List ResearchNode) :
    (ResearchNode.mk q s r sc i f d c).searchResults = s := rfl

@[simp] theorem ResearchNode.relevantResults_mk (q : String) (s r : List LightweightSearchResult)
    (sc : List (String × ℚ)) (i f : List String) (d : Int) (c : List ResearchNode) :
    (ResearchNode.mk q s r sc i f d c).relevantResults = r := rfl

@[simp] theorem ResearchNode.relevanceScores_mk (q : String) (s r : List LightweightSearchResult)
    (sc : List (String × ℚ)) (i f : List String) (d : Int) (c : List ResearchNode) :
    (ResearchNode.mk q s r sc i f d c).relevanceScores = sc := rfl

@[simp] theorem ResearchNode.insights_mk (q : String) (s r : List LightweightSearchResult)
    (sc : List (String × ℚ)) (i f : List String) (d : Int) (c : List ResearchNode) :
    (ResearchNode.mk q s r sc i f d c).insights = i := rfl

@[simp] theorem ResearchNode.followUpQuestions_mk (q : String) (s r : List LightweightSearchResult)
    (sc : List (String × ℚ)) (i f : List String) (d : Int) (c : List ResearchNode) :
    (ResearchNode.mk q s r sc i f d c).followUpQuestions = f := rfl

@[simp] theorem ResearchNode.depth_mk (q : String) (s r : List LightweightSearchResult)
    (sc : List (String × ℚ)) (i f : List String) (d : Int) (c : List ResearchNode) :
    (ResearchNode.mk q s r sc i f d c).depth = d := rfl

@[simp] theorem ResearchNode.children_mk (q : String) (s r : List LightweightSearchResult)
    (sc : List (String × ℚ)) (i f : List String) (d : Int) (c : List ResearchNode) :
    (ResearchNode.mk q s r sc i f d c).children = c := rfl

theorem citationSegs_nil : citationSegs [] = [] := by
  unfold citationSegs
  rfl

theorem citationSegs_cons (c : Char) (cs : List Char) :
    citationSegs (c :: cs) =
      if c = '[' ∧ cs.takeWhile Char.isDigit ≠ [] ∧ (cs.dropWhile Char.isDigit).head? = some ']' then
        CitationSeg.marker (cs.takeWhile Char.isDigit) :: citationSegs (cs.dropWhile Char.isDigit).tail
      else CitationSeg.lit c :: citationSegs cs := by
  conv_lhs => unfold citationSegs

theorem natToChars_eq (n : ℕ) :
    natToChars n =
      if n < 10 then [Char.ofNat (48 + n)]
      else natToChars (n / 10) ++ [Char.ofNat (48 + n % 10)] := by
  conv_lhs => unfold natToChars
  split <;> rfl

theorem digitsToNat_append (a : List Char) (c : Char) :
    digitsToNat (a ++ [c]) = 10 * digitsToNat a + (c.toNat - 48) := by
  simp [digitsToNat, List.foldl_append]

theorem char_ofNat_digit_toNat (d : ℕ) (h : d < 10) : (Char.ofNat (48 + d)).toNat = 48 + d := by
  interval_cases d <;> decide

theorem char_ofNat_digit_isDigit (d : ℕ) (h : d < 10) : (Char.ofNat (48 + d)).isDigit := by
  interval_cases d <;> decide

theorem natToChars_roundtrip (n : ℕ) : digitsToNat (natToChars n) = n := by
  induction n using Nat.strong_induction_on with
  | _ n ih =>
    rw [natToChars_eq]
    split
    case isTrue h =>
      have h2 := char_ofNat_digit_toNat n h
      simp [digitsToNat, h2]
    case isFalse h =>
      rw [digitsToNat_append, ih (n / 10) (by omega), char_ofNat_digit_toNat (n % 10) (by omega)]
      omega

theorem natToChars_ne_nil (n : ℕ) : natToChars n ≠ [] := by
  rw [natToChars_eq]
  split <;> simp

theorem natToChars_digits (n : ℕ) : ∀ c ∈ natToChars n, Char.isDigit c := by
  induction n using Nat.strong_induction_on with
  | _ n ih =>
    rw [natToChars_eq]
    split
    case isTrue h =>
      intro c hc
      simp at hc
      subst hc
      exact char_ofNat_digit_isDigit n h
    case isFalse h =>
      intro c hc
      rw [List.mem_append] at hc
      rcases hc with hc | hc
      · exact ih (n / 10) (by omega) c hc
      · simp at hc
        subst hc
        exact char_ofNat_digit_isDigit (n % 10) (by omega)

theorem takeWhile_append_digits (ds r : List Char) (h : ∀ c ∈ ds, Char.isDigit c) :
    (ds ++ r).takeWhile Char.isDigit = ds ++ r.takeWhile Char.isDigit := by
  induction ds with
  | nil => simp
  | cons d ds ih =>
    have hd : Char.isDigit d := h d (by simp)
    have ih2 := ih (fun c hc => h c (by simp [hc]))
    simp [List.takeWhile_cons, hd, ih2]

theorem dropWhile_append_digits (ds r : List Char) (h : ∀ c ∈ ds, Char.isDigit c) :
    (ds ++ r).dropWhile Char.isDigit = r.dropWhile Char.isDigit := by
  induction ds with
  | nil => simp
  | cons d ds ih =>
    have hd : Char.isDigit d := h d (by simp)
    have ih2 := ih (fun c hc => h c (by simp [hc]))
    simp [List.dropWhile_cons, hd, ih2]

theorem citationSegs_cons_lit (c : Char) (cs : List Char) (h : c ≠ '[') :
    citationSegs (c :: cs) = CitationSeg.lit c :: citationSegs cs := by
  rw [citationSegs_cons]
  simp [h]

theorem citationSegs_marker (ds rest : List Char) (h1 : ds ≠ [])
    (h2 : ∀ c ∈ ds, Char.isDigit c) :
    citationSegs ('[' :: (ds ++ ']' :: rest)) = CitationSeg.marker ds :: citationSegs rest := by
  rw [citationSegs_cons]
  have ht : (ds ++ ']' :: rest).takeWhile Char.isDigit = ds := by
    rw [takeWhile_append_digits ds _ h2]
    simp [List.takeWhile_cons]
  have hd : (ds ++ ']' :: rest).dropWhile Char.isDigit = ']' :: rest := by
    rw [dropWhile_append_digits ds _ h2]
    simp [List.dropWhile_cons]
  simp [ht, hd, h1]

theorem citationSegs_open_fail (cs : List Char)
    (h : cs.takeWhile Char.isDigit = [] ∨ ¬ (cs.dropWhile Char.isDigit).head? = some ']') :
    citationSegs ('[' :: cs) = CitationSeg.lit '[' :: citationSegs cs := by
  rw [citationSegs_cons]
  rcases h with h | h
  · simp [h]
  · simp [h]

theorem segsText_reconstruct (s : List Char) :
    ((citationSegs s).map segText).flatten = s := by
  suffices hgen : ∀ n (t : List Char), t.length = n → ((citationSegs t).map segText).flatten = t by
    exact hgen s.length s rfl
  intro n
  induction n using Nat.strong_induction_on with
  | _ n ih =>
    intro t hl
    match t, hl with
    | [], _ => simp [citationSegs_nil]
    | c :: cs, hl =>
      rw [citationSegs_cons]
      split
      case isTrue h =>
        obtain ⟨hc, hne, hh⟩ := h
        obtain ⟨r2, hr2⟩ : ∃ r2, cs.dropWhile Char.isDigit = ']' :: r2 := by
          cases hdw : cs.dropWhile Char.isDigit with
          | nil => rw [hdw] at hh; simp at hh
          | cons x xs =>
            rw [hdw] at hh
            simp at hh
            subst hh
            exact ⟨xs, rfl⟩
        subst hc
        have hdl : (cs.dropWhile Char.isDigit).length ≤ cs.length :=
          (List.dropWhile_sublist Char.isDigit (l := cs)).length_le
        have hlen : r2.length < n := by
          rw [hr2] at hdl
          simp at hdl
          simp at hl
          omega
        rw [hr2]
        simp only [List.tail_cons, List.map_cons, List.flatten_cons, segText]
        rw [ih r2.length hlen r2 rfl]
        conv_rhs => rw [← List.takeWhile_append_dropWhile (p := Char.isDigit) (l := cs)]
        rw [hr2]
        simp
      case isFalse h =>
        simp only [List.map_cons, List.flatten_cons, segText]
        have hlen : cs.length < n := by
          simp at hl
          omega
        rw [ih cs.length hlen cs rfl]
        simp

theorem repairCitation_nonneg (maxC n : ℕ) : 0 ≤ repairCitation maxC n := by
  cases n with
  | zero =>
    have h1 : repairCitation maxC 0 = Int.tmod (-1) (maxC : ℤ) + 1 := by
      simp [repairCitation, jsRemainder]
    rw [h1, Int.tmod_def, Int.neg_tdiv]
    have h2 : 0 ≤ (1 : ℤ).tdiv (maxC : ℤ) := by
      rw [Int.tdiv_eq_ediv (by omega) (by omega)]
      positivity
    have h3 : 0 ≤ (maxC : ℤ) := by omega
    nlinarith
  | succ m =>
    have h1 : (0 : ℤ) ≤ Int.tmod (|((m + 1 : ℕ) : ℤ)| - 1) (maxC : ℤ) := by
      apply Int.tmod_nonneg
      rw [abs_of_nonneg (by omega)]
      omega
    unfold repairCitation jsRemainder
    omega

theorem repairCitation_toNat (maxC n : ℕ) (hmax : 1 ≤ maxC) :
    (repairCitation maxC n).toNat =
      if n = 0 then (if maxC = 1 then 1 else 0) else (n - 1) % maxC + 1 := by
  cases n with
  | zero =>
    rcases Nat.lt_or_ge maxC 2 with h2 | h2
    · have hm : maxC = 1 := by omega
      subst hm
      decide
    · have hne : ¬ maxC = 1 := by omega
      have h1 : repairCitation maxC 0 = Int.tmod (-1) (maxC : ℤ) + 1 := by
        simp [repairCitation, jsRemainder]
      have h3 : (1 : ℤ).tdiv (maxC : ℤ) = 0 := by
        rw [Int.tdiv_eq_ediv (by omega) (by omega)]
        apply Int.ediv_eq_zero_of_lt (by omega)
        omega
      rw [h1, Int.tmod_def, Int.neg_tdiv, h3]
      simp [hne]
  | succ m =>
    have habs : |((m + 1 : ℕ) : ℤ)| - 1 = (m : ℤ) := by
      rw [abs_of_nonneg (by omega)]
      omega
    have h1 : repairCitation maxC (m + 1) = ((m : ℤ) % (maxC : ℤ)) + 1 := by
      unfold repairCitation jsRemainder
      rw [habs, Int.tmod_eq_emod (by omega) (by omega)]
    have h2 : (m : ℤ) % (maxC : ℤ) = ((m % maxC : ℕ) : ℤ) := by
      push_cast
      rfl
    rw [h1, h2]
    simp
    omega

theorem intToChars_of_nonneg (k : ℤ) (h : 0 ≤ k) : intToChars k = natToChars k.toNat := by
  unfold intToChars
  rw [if_neg (by omega)]

theorem takeWhile_nil_of_head (l : List Char) (x : Char) (h1 : l.head? = some x)
    (h2 : ¬ Char.isDigit x) : l.takeWhile Char.isDigit = [] := by
  cases l with
  | nil => simp at h1
  | cons a as =>
    simp at h1
    subst h1
    simp [List.takeWhile_cons, h2]

theorem dropWhile_self_of_head (l : List Char) (x : Char) (h1 : l.head? = some x)
    (h2 : ¬ Char.isDigit x) : l.dropWhile Char.isDigit = l := by
  cases l with
  | nil => simp at h1
  | cons a as =>
    simp at h1
    subst h1
    simp [List.dropWhile_cons, h2]

theorem validateCitations_nil (maxC : ℕ) : validateCitations maxC [] = [] := by
  simp [validateCitations, citationSegs_nil]

theorem validateCitations_cons_lit (maxC : ℕ) (c : Char) (cs : List Char) (h : c ≠ '[') :
    validateCitations maxC (c :: cs) = c :: validateCitations maxC cs := by
  rw [validateCitations, citationSegs_cons_lit c cs h]
  simp [applyCitationSeg, validateCitations]

theorem validateCitations_digits_append (maxC : ℕ) (ds t : List Char)
    (h : ∀ c ∈ ds, Char.isDigit c) :
    validateCitations maxC (ds ++ t) = ds ++ validateCitations maxC t := by
  induction ds with
  | nil => simp
  | cons d rest ih =>
    have hd : Char.isDigit d := h d (by simp)
    have hne : d ≠ '[' := by
      intro he
      subst he
      exact absurd hd (by decide)
    rw [List.cons_append, validateCitations_cons_lit maxC d _ hne,
      ih (fun c hc => h c (by simp [hc]))]
    rfl

theorem validateCitations_head (maxC : ℕ) (t : List Char) :
    (validateCitations maxC t).head? = t.head? := by
  cases t with
  | nil => simp [validateCitations_nil]
  | cons c cs =>
    rw [validateCitations, citationSegs_cons]
    split
    case isTrue h =>
      obtain ⟨hc, hne, hh⟩ := h
      subst hc
      simp only [List.map_cons, List.flatten_cons, applyCitationSeg]
      split <;> simp
    case isFalse h =>
      simp [applyCitationSeg]

theorem not_isDigit_head_dropWhile (l : List Char) (x : Char) (xs : List Char)
    (h : l.dropWhile Char.isDigit = x :: xs) : ¬ Char.isDigit x := by
  induction l with
  | nil => simp at h
  | cons a as ih =>
    rw [List.dropWhile_cons] at h
    by_cases ha : Char.isDigit a
    · simp [ha] at h
      exact ih h
    · simp [ha] at h
      obtain ⟨h1, h2⟩ := h
      subst h1
      exact ha

theorem citationSegs_validate (maxC : ℕ) (s : List Char) :
    citationSegs (validateCitations maxC s) = (citationSegs s).map (reSegRule maxC) := by
  suffices hgen : ∀ n (t : List Char), t.length = n →
      citationSegs (validateCitations maxC t) = (citationSegs t).map (reSegRule maxC) by
    exact hgen s.length s rfl
  intro n
  induction n using Nat.strong_induction_on with
  | _ n ih =>
    intro t hl
    match t, hl with
    | [], _ => simp [validateCitations_nil, citationSegs_nil]
    | c :: cs, hl =>
      by_cases hc : c = '['
      case neg =>
        rw [validateCitations_cons_lit maxC c cs hc, citationSegs_cons_lit c cs hc,
          citationSegs_cons_lit c _ hc]
        have hlen : cs.length < n := by
          simp at hl
          omega
        rw [ih cs.length hlen cs rfl]
        simp [reSegRule]
      case pos =>
        subst hc
        by_cases hm : cs.takeWhile Char.isDigit ≠ [] ∧ (cs.dropWhile Char.isDigit).head? = some ']'
        case pos =>
          obtain ⟨hne, hh⟩ := hm
          obtain ⟨r2, hr2⟩ : ∃ r2, cs.dropWhile Char.isDigit = ']' :: r2 := by
            cases hdw : cs.dropWhile Char.isDigit with
            | nil => rw [hdw] at hh; simp at hh
            | cons x xs =>
              rw [hdw] at hh
              simp at hh
              subst hh
              exact ⟨xs, rfl⟩
          have hdigits : ∀ ch ∈ cs.takeWhile Char.isDigit, Char.isDigit ch :=
            fun ch hch => List.mem_takeWhile_imp hch
          have hsegs : citationSegs ('[' :: cs) =
              CitationSeg.marker (cs.takeWhile Char.isDigit) :: citationSegs r2 := by
            rw [citationSegs_cons]
            simp [hne, hh, hr2]
          have hval : validateCitations maxC ('[' :: cs) =
              applyCitationSeg maxC (CitationSeg.marker (cs.takeWhile Char.isDigit)) ++
                validateCitations maxC r2 := by
            rw [validateCitations, hsegs]
            simp [validateCitations]
          have hlen : r2.length < n := by
            have hdl : (cs.dropWhile Char.isDigit).length ≤ cs.length :=
              (List.dropWhile_sublist Char.isDigit (l := cs)).length_le
            rw [hr2] at hdl
            simp at hdl
            simp at hl
            omega
          rw [hval, hsegs, List.map_cons]
          by_cases hrange : maxC < digitsToNat (cs.takeWhile Char.isDigit) ∨
              digitsToNat (cs.takeWhile Char.isDigit) < 1
          · have happ : applyCitationSeg maxC (CitationSeg.marker (cs.takeWhile Char.isDigit)) =
                '[' :: (intToChars (repairCitation maxC (digitsToNat (cs.takeWhile Char.isDigit))) ++ [']']) := by
              simp only [applyCitationSeg]
              rw [if_pos hrange]
              simp
            have hDS : ∀ ch ∈ intToChars (repairCitation maxC (digitsToNat (cs.takeWhile Char.isDigit))),
                Char.isDigit ch := by
              rw [intToChars_of_nonneg _ (repairCitation_nonneg maxC _)]
              exact natToChars_digits _
            have hDSne : intToChars (repairCitation maxC (digitsToNat (cs.takeWhile Char.isDigit))) ≠ [] := by
              rw [intToChars_of_nonneg _ (repairCitation_nonneg maxC _)]
              exact natToChars_ne_nil _
            rw [happ]
            have hshape :
                ('[' :: (intToChars (repairCitation maxC (digitsToNat (cs.takeWhile Char.isDigit))) ++ [']'])) ++
                  validateCitations maxC r2 =
                '[' :: (intToChars (repairCitation maxC (digitsToNat (cs.takeWhile Char.isDigit))) ++
                  ']' :: validateCitations maxC r2) := by
              simp
            rw [hshape, citationSegs_marker _ _ hDSne hDS, ih r2.length hlen r2 rfl]
            have hre : reSegRule maxC (CitationSeg.marker (cs.takeWhile Char.isDigit)) =
                CitationSeg.marker
                  (intToChars (repairCitation maxC (digitsToNat (cs.takeWhile Char.isDigit)))) := by
              simp only [reSegRule]
              rw [if_pos hrange]
            rw [hre]
          · have happ : applyCitationSeg maxC (CitationSeg.marker (cs.takeWhile Char.isDigit)) =
                '[' :: (cs.takeWhile Char.isDigit ++ [']']) := by
              simp only [applyCitationSeg]
              rw [if_neg hrange]
              simp
            rw [happ]
            have hshape :
                ('[' :: (cs.takeWhile Char.isDigit ++ [']'])) ++ validateCitations maxC r2 =
                '[' :: (cs.takeWhile Char.isDigit ++ ']' :: validateCitations maxC r2) := by
              simp
            rw [hshape, citationSegs_marker _ _ hne hdigits, ih r2.length hlen r2 rfl]
            have hre : reSegRule maxC (CitationSeg.marker (cs.takeWhile Char.isDigit)) =
                CitationSeg.marker (cs.takeWhile Char.isDigit) := by
              simp only [reSegRule]
              rw [if_neg hrange]
            rw [hre]
        case neg =>
          have hfail : cs.takeWhile Char.isDigit = [] ∨
              ¬ (cs.dropWhile Char.isDigit).head? = some ']' := by
            by_cases h0 : cs.takeWhile Char.isDigit = []
            · exact Or.inl h0
            · right
              intro hcontra
              exact hm ⟨h0, hcontra⟩
          rw [citationSegs_open_fail cs hfail]
          have hval : validateCitations maxC ('[' :: cs) = '[' :: validateCitations maxC cs := by
            rw [validateCitations, citationSegs_open_fail cs hfail]
            simp [applyCitationSeg, validateCitations]
          rw [hval]
          have hcs : validateCitations maxC cs =
              cs.takeWhile Char.isDigit ++ validateCitations maxC (cs.dropWhile Char.isDigit) := by
            conv_lhs => rw [← List.takeWhile_append_dropWhile (p := Char.isDigit) (l := cs)]
            exact validateCitations_digits_append maxC _ _ (fun ch hch => List.mem_takeWhile_imp hch)
          have hfail2 : (validateCitations maxC cs).takeWhile Char.isDigit = [] ∨
              ¬ ((validateCitations maxC cs).dropWhile Char.isDigit).head? = some ']' := by
            cases hr : cs.dropWhile Char.isDigit with
            | nil =>
              right
              rw [hcs, hr, validateCitations_nil, List.append_nil]
              have hall : ∀ ch ∈ cs.takeWhile Char.isDigit, Char.isDigit ch :=
                fun ch hch => List.mem_takeWhile_imp hch
              have hdw : (cs.takeWhile Char.isDigit).dropWhile Char.isDigit = [] :=
                List.dropWhile_eq_nil_iff.mpr hall
              rw [hdw]
              simp
            | cons x xs =>
              have hx : ¬ Char.isDigit x := not_isDigit_head_dropWhile cs x xs hr
              have hhead : (validateCitations maxC (cs.dropWhile Char.isDigit)).head? = some x := by
                rw [validateCitations_head, hr]
                rfl
              have htw : (validateCitations maxC cs).takeWhile Char.isDigit =
                  cs.takeWhile Char.isDigit := by
                rw [hcs, takeWhile_append_digits _ _ (fun ch hch => List.mem_takeWhile_imp hch),
                  takeWhile_nil_of_head _ x hhead hx, List.append_nil]
              have hdw : (validateCitations maxC cs).dropWhile Char.isDigit =
                  validateCitations maxC (cs.dropWhile Char.isDigit) := by
                rw [hcs, dropWhile_append_digits _ _ (fun ch hch => List.mem_takeWhile_imp hch),
                  dropWhile_self_of_head _ x hhead hx]
              rcases hfail with h0 | h0
              · left
                rw [htw, h0]
              · right
                rw [hdw, hhead]
                rw [hr] at h0
                simp at h0
                simp [h0]
          rw [citationSegs_open_fail _ hfail2]
          have hlen : cs.length < n := by
            simp at hl
            omega
          rw [ih cs.length hlen cs rfl]
          simp [reSegRule]

theorem markersOf_validate (maxC : ℕ) (hmax : 1 ≤ maxC) (s : List Char) :
    markersOf (validateCitations maxC s) = (markersOf s).map (jsCitationRule maxC) := by
  rw [markersOf, citationSegs_validate, List.filterMap_map, markersOf, List.map_filterMap]
  apply List.filterMap_congr
  intro seg _
  cases seg with
  | lit c => simp [reSegRule]
  | marker ds =>
    simp only [Function.comp_apply, reSegRule, Option.map_some]
    by_cases hrange : maxC < digitsToNat ds ∨ digitsToNat ds < 1
    · rw [if_pos hrange]
      rw [intToChars_of_nonneg _ (repairCitation_nonneg maxC _), natToChars_roundtrip,
        repairCitation_toNat maxC _ hmax]
      rw [show Option.map (jsCitationRule maxC) (some (digitsToNat ds)) =
          some (jsCitationRule maxC (digitsToNat ds)) from rfl]
      unfold jsCitationRule
      rw [if_pos hrange]
    · rw [if_neg hrange]
      rw [show Option.map (jsCitationRule maxC) (some (digitsToNat ds)) =
          some (jsCitationRule maxC (digitsToNat ds)) from rfl]
      unfold jsCitationRule
      rw [if_neg hrange]

theorem natToChars_small (n : ℕ) (h : n < 10) : natToChars n = [Char.ofNat (48 + n)] := by
  rw [natToChars_eq, if_pos h]

theorem intToChars_zero : intToChars 0 = ['0'] := by
  rw [intToChars_of_nonneg 0 (by omega), show ((0 : ℤ).toNat) = 0 from rfl,
    natToChars_small 0 (by omega)]

theorem intToChars_one : intToChars 1 = ['1'] := by
  rw [intToChars_of_nonneg 1 (by omega), show ((1 : ℤ).toNat) = 1 from rfl,
    natToChars_small 1 (by omega)]

theorem intToChars_three : intToChars 3 = ['3'] := by
  rw [intToChars_of_nonneg 3 (by omega), show ((3 : ℤ).toNat) = 3 from rfl,
    natToChars_small 3 (by omega)]

theorem citationSegs_example_one_seven :
    citationSegs (String.toList "see [1] and [7]") =
      [CitationSeg.lit 's', CitationSeg.lit 'e', CitationSeg.lit 'e', CitationSeg.lit ' ',
       CitationSeg.marker ['1'], CitationSeg.lit ' ', CitationSeg.lit 'a', CitationSeg.lit 'n',
       CitationSeg.lit 'd', CitationSeg.lit ' ', CitationSeg.marker ['7']] := by
  simp [citationSegs_cons, citationSegs_nil]

theorem applyCitationSeg_lit (maxC : ℕ) (c : Char) :
    applyCitationSeg maxC (CitationSeg.lit c) = [c] := rfl

theorem validateCitations_example_one_seven :
    validateCitations 3 (String.toList "see [1] and [7]") = String.toList "see [1] and [1]" := by
  rw [validateCitations, citationSegs_example_one_seven]
  have e1 : applyCitationSeg 3 (CitationSeg.marker ['1']) = ['[', '1', ']'] := by
    have hd : digitsToNat ['1'] = 1 := by decide
    simp [applyCitationSeg, hd]
  have e7 : applyCitationSeg 3 (CitationSeg.marker ['7']) = ['[', '1', ']'] := by
    have hd : digitsToNat ['7'] = 7 := by decide
    have hr : repairCitation 3 7 = 1 := by decide
    simp [applyCitationSeg, hd, hr, intToChars_one]
  simp only [List.map_cons, List.map_nil, e1, e7, applyCitationSeg_lit]
  decide

theorem citationSegs_example_zero :
    citationSegs (String.toList "[0]") = [CitationSeg.marker ['0']] := by
  simp [citationSegs_cons, citationSegs_nil]

theorem validateCitations_example_zero :
    validateCitations 3 (String.toList "[0]") = String.toList "[0]" := by
  rw [validateCitations, citationSegs_example_zero]
  have e0 : applyCitationSeg 3 (CitationSeg.marker ['0']) = ['[', '0', ']'] := by
    have hd : digitsToNat ['0'] = 0 := by decide
    have hr : repairCitation 3 0 = 0 := by decide
    simp [applyCitationSeg, hd, hr, intToChars_zero]
  simp only [List.map_cons, List.map_nil, e0]
  decide

theorem specValidateCitations_example_zero :
    specValidateCitations 3 (String.toList "[0]") = String.toList "[3]" := by
  rw [specValidateCitations, citationSegs_example_zero]
  have e0 : specApplyCitationSeg 3 (CitationSeg.marker ['0']) = ['[', '3', ']'] := by
    have hd : digitsToNat ['0'] = 0 := by decide
    have hr : specRepairCitation 3 0 = 3 := by decide
    simp [specApplyCitationSeg, hd, hr, intToChars_three]
  simp only [List.map_cons, List.map_nil, e0]
  decide

theorem citationSegs_example_seven :
    citationSegs (String.toList "[7]") = [CitationSeg.marker ['7']] := by
  simp [citationSegs_cons, citationSegs_nil]

theorem validateCitations_example_seven :
    validateCitations 3 (String.toList "[7]") = String.toList "[1]" := by
  rw [validateCitations, citationSegs_example_seven]
  have e7 : applyCitationSeg 3 (CitationSeg.marker ['7']) = ['[', '1', ']'] := by
    have hd : digitsToNat ['7'] = 7 := by decide
    have hr : repairCitation 3 7 = 1 := by decide
    simp [applyCitationSeg, hd, hr, intToChars_one]
  simp only [List.map_cons, List.map_nil, e7]
  decide

theorem citationSegs_example_one :
    citationSegs (String.toList "[1]") = [CitationSeg.marker ['1']] := by
  simp [citationSegs_cons, citationSegs_nil]

/- ===================== Claim C2 ===================== -/

/-- Claim C2, counterexample: the claim states the replacement for every
out-of-range matched number `n` is `((|n| - 1) mod maxCitationNumber) + 1`;
with the mathematical remainder the spec's words denote, the text "[0]"
at `maxCitationNumber = 3` would become "[3]", but the code (whose `%`
is a truncated remainder, giving `(-1) % 3 = -1`) leaves it as "[0]". -/
theorem c2_citation_rule_counterexample :
    validateCitations 3 (String.toList "[0]") = String.toList "[0]" ∧
    specValidateCitations 3 (String.toList "[0]") = String.toList "[3]" ∧
    validateCitations 3 (String.toList "[0]") ≠ specValidateCitations 3 (String.toList "[0]") := by
  refine ⟨validateCitations_example_zero, specValidateCitations_example_zero, ?_⟩
  rw [validateCitations_example_zero, specValidateCitations_example_zero]
  decide

/-- Claim C2 (amended): citation validation processes each matched
marker independently; a marker whose number `n` satisfies
`1 ≤ n ≤ maxCitationNumber` is left untouched, and any other marker is
replaced by the decimal marker of `jsCitationRule`, which equals
`((n - 1) mod maxCitationNumber) + 1` for `n ≥ 1` but, because the
JavaScript `%` is a truncated remainder, maps `n = 0` to `0` when
`maxCitationNumber ≥ 2` and to `1` when `maxCitationNumber = 1`; in
particular "see [1] and [7]" with `maxCitationNumber = 3` becomes
"see [1] and [1]". -/
theorem c2_citation_rewrite_rule (maxC : ℕ) (hmax : 1 ≤ maxC) (ds rest : List Char)
    (h1 : ds ≠ []) (h2 : ∀ c ∈ ds, Char.isDigit c) :
    validateCitations maxC ('[' :: (ds ++ ']' :: rest)) =
      (if 1 ≤ digitsToNat ds ∧ digitsToNat ds ≤ maxC then '[' :: (ds ++ [']'])
       else '[' :: (natToChars (jsCitationRule maxC (digitsToNat ds)) ++ [']'])) ++
        validateCitations maxC rest ∧
    validateCitations 3 (String.toList "see [1] and [7]") = String.toList "see [1] and [1]" := by
  constructor
  · have hmain : applyCitationSeg maxC (CitationSeg.marker ds) =
        (if 1 ≤ digitsToNat ds ∧ digitsToNat ds ≤ maxC then '[' :: (ds ++ [']'])
         else '[' :: (natToChars (jsCitationRule maxC (digitsToNat ds)) ++ [']'])) := by
      by_cases hrange : maxC < digitsToNat ds ∨ digitsToNat ds < 1
      · simp only [applyCitationSeg]
        rw [if_pos hrange, if_neg (by omega)]
        have hv : (repairCitation maxC (digitsToNat ds)).toNat =
            jsCitationRule maxC (digitsToNat ds) := by
          rw [repairCitation_toNat maxC _ hmax]
          unfold jsCitationRule
          rw [if_pos hrange]
        rw [intToChars_of_nonneg _ (repairCitation_nonneg maxC _), hv]
        simp
      · simp only [applyCitationSeg]
        rw [if_neg hrange, if_pos (by omega)]
        simp
    rw [validateCitations, citationSegs_marker ds rest h1 h2, List.map_cons,
      List.flatten_cons, hmain]
    rfl
  · exact validateCitations_example_one_seven

/-- Claim C2 witness: the amended rewrite rule applied at
`maxCitationNumber = 3` to the single marker of the text "[7]". -/
theorem c2_citation_rewrite_rule_witness :
    validateCitations 3 ('[' :: (['7'] ++ ']' :: [])) =
      (if 1 ≤ digitsToNat ['7'] ∧ digitsToNat ['7'] ≤ 3 then '[' :: (['7'] ++ [']'])
       else '[' :: (natToChars (jsCitationRule 3 (digitsToNat ['7'])) ++ [']'])) ++
        validateCitations 3 [] ∧
    validateCitations 3 (String.toList "see [1] and [7]") = String.toList "see [1] and [1]" :=
  c2_citation_rewrite_rule 3 (by decide) ['7'] [] (by decide) (by decide)

/- ===================== Claim C3 ===================== -/

/-- Claim C3, counterexample: the claim states that in the output of
citation validation every marker number lies between 1 and
`maxCitationNumber`, including when the input contains "[0]"; but the
code maps the marker "[0]" to "[0]" when `maxCitationNumber = 3`, and
`0` is below the range. -/
theorem c3_citation_range_counterexample :
    markersOf (validateCitations 3 (String.toList "[0]")) = [0] ∧ ¬ (1 ≤ (0 : ℕ)) := by
  constructor
  · rw [validateCitations_example_zero]
    simp only [markersOf, citationSegs_example_zero]
    decide
  · decide

/-- Claim C3 (amended): citation validation is a total function and,
for `maxCitationNumber ≥ 1`, every marker number in its output lies in
the range `1..maxCitationNumber`, with the single exception of `0`: a
marker "[0]" in the input is reproduced as the below-range marker "[0]"
whenever `maxCitationNumber ≥ 2` (and an output `0` can only arise from
an input "[0]"). -/
theorem c3_citations_resolve (maxC : ℕ) (hmax : 1 ≤ maxC) (s : List Char) :
    ∀ n ∈ markersOf (validateCitations maxC s),
      (1 ≤ n ∧ n ≤ maxC) ∨ (n = 0 ∧ 2 ≤ maxC ∧ 0 ∈ markersOf s) := by
  intro n hn
  rw [markersOf_validate maxC hmax] at hn
  obtain ⟨m, hm, hrule⟩ := List.mem_map.mp hn
  subst hrule
  unfold jsCitationRule
  by_cases h : maxC < m ∨ m < 1
  · rw [if_pos h]
    by_cases h0 : m = 0
    · rw [if_pos h0]
      by_cases h1 : maxC = 1
      · rw [if_pos h1]
        left
        omega
      · rw [if_neg h1]
        right
        exact ⟨rfl, by omega, h0 ▸ hm⟩
    · rw [if_neg h0]
      left
      have hmod : (m - 1) % maxC < maxC := Nat.mod_lt _ (by omega)
      omega
  · rw [if_neg h]
    left
    omega

/-- Claim C3 witness: the range guarantee applied at
`maxCitationNumber = 3` to the output marker of the text "[7]",
which the validator rewrote to "[1]". -/
theorem c3_citations_resolve_witness :
    (1 ≤ 1 ∧ 1 ≤ 3) ∨ ((1 : ℕ) = 0 ∧ 2 ≤ 3 ∧ 0 ∈ markersOf (String.toList "[7]")) :=
  c3_citations_resolve 3 (by decide) (String.toList "[7]") 1 (by
    rw [validateCitations_example_seven]
    simp only [markersOf, citationSegs_example_one]
    decide)

/- ===================== Claim C10 ===================== -/

/-- Claim C10: the validation pass rewrites only regex matches: the
scan decomposes the text into literal characters and matched markers
and reassembling the untouched decomposition reproduces the input
byte for byte; literal characters pass through the replacement
unchanged; a bracketed number with a sign or a dot, such as "[-3]" or
"[1.5]", is never matched and never altered; and since matched numbers
are unsigned digit runs, the only below-range value the validator can
match is `0`. -/
theorem c10_frame_preservation :
    (∀ s : List Char, ((citationSegs s).map segText).flatten = s) ∧
    (∀ (maxC : ℕ) (s : List Char),
      validateCitations maxC s = ((citationSegs s).map (applyCitationSeg maxC)).flatten) ∧
    (∀ (maxC : ℕ) (c : Char), applyCitationSeg maxC (CitationSeg.lit c) = [c]) ∧
    validateCitations 3 (String.toList "a[-3]b[1.5]c") = String.toList "a[-3]b[1.5]c" ∧
    (∀ (s : List Char), ∀ n ∈ markersOf s, n < 1 → n = 0) := by
  refine ⟨segsText_reconstruct, fun maxC s => rfl, fun maxC c => rfl, ?_,
    fun s n _ h => by omega⟩
  have hsegs : citationSegs (String.toList "a[-3]b[1.5]c") =
      [CitationSeg.lit 'a', CitationSeg.lit '[', CitationSeg.lit '-', CitationSeg.lit '3',
       CitationSeg.lit ']', CitationSeg.lit 'b', CitationSeg.lit '[', CitationSeg.lit '1',
       CitationSeg.lit '.', CitationSeg.lit '5', CitationSeg.lit ']', CitationSeg.lit 'c'] := by
    simp [citationSegs_cons, citationSegs_nil]
  rw [validateCitations, hsegs]
  decide

/-- Claim C10 witness: the reconstruction equation applied to a
concrete text, and the below-range argument applied to the marker of
"[0]". -/
theorem c10_frame_preservation_witness :
    ((citationSegs (String.toList "ab")).map segText).flatten = String.toList "ab" ∧
    (0 : ℕ) = 0 :=
  ⟨c10_frame_preservation.1 (String.toList "ab"),
   c10_frame_preservation.2.2.2.2 (String.toList "[0]") 0
     (by simp only [markersOf, citationSegs_example_zero]; decide) (by decide)⟩

/- ===================== Claim C9 ===================== -/

/-- Claim C9: `toLightweightResult` keeps the raw title when it is
present and nonempty and uses "Untitled" otherwise; the snippet is the
first `min 300 (length)` characters of the raw text (empty when the
text is absent, with no padding and no word-boundary adjustment); the
url and the optional provider score are passed through unchanged. -/
theorem c9_toLightweightResult (r : RawSearchResult) :
    (toLightweightResult r).title =
      (match r.title with
       | some t => if t ≠ "" then t else "Untitled"
       | none => "Untitled") ∧
    (toLightweightResult r).snippet =
      (match r.text with
       | some t => t.take 300
       | none => []) ∧
    (toLightweightResult r).snippet.length =
      min 300 (match r.text with | some t => t.length | none => 0) ∧
    (toLightweightResult r).url = r.url ∧
    (toLightweightResult r).score = r.score := by
  refine ⟨?_, ?_, ?_, rfl, rfl⟩
  · cases ht : r.title with
    | none => simp [toLightweightResult, jsOrString, ht]
    | some t =>
      by_cases he : t = ""
      · simp [toLightweightResult, jsOrString, ht, he]
      · simp [toLightweightResult, jsOrString, ht, he]
  · cases ht : r.text with
    | none => simp [toLightweightResult, jsOrChars, ht]
    | some t =>
      by_cases he : t = []
      · simp [toLightweightResult, jsOrChars, ht, he]
      · simp [toLightweightResult, jsOrChars, ht, he]
  · cases ht : r.text with
    | none => simp [toLightweightResult, jsOrChars, ht]
    | some t =>
      by_cases he : t = []
      · simp [toLightweightResult, jsOrChars, ht, he]
      · simp [toLightweightResult, jsOrChars, ht, he, List.length_take]

/- ===================== Research tree builder lemmas ===================== -/

theorem performDeepResearch_eq (o : ExternalCalls) (query topic : String)
    (config : ResearchConfig) (currentDepth : Int) :
    performDeepResearch o query topic config currentDepth =
      (let fullResults := o.searchAndContents query config.resultsPerQuery
       let searchResults := fullResults.map toLightweightResult
       let relevanceChecks := fullResults.map (fun result => o.checkRelevance result topic query)
       let relevanceScores := recordScores searchResults relevanceChecks
       let relevantFullResults := filterRelevant fullResults relevanceChecks
       let relevantResults := relevantFullResults.map toLightweightResult
       if relevantFullResults.length > 0 then
         let insights := generateInsights o relevantFullResults topic query
         if currentDepth < config.maxDepth - 1 then
           let nodeBeforeQuestions := ResearchNode.mk query searchResults relevantResults
             relevanceScores insights [] currentDepth []
           let followUpQuestions := o.generateFollowUpQuestionsCall nodeBeforeQuestions topic
             config.followUpQuestionsPerNode
           let children :=
             if followUpQuestions.length > 0 then
               followUpQuestions.map (fun followUpQuery =>
                 performDeepResearch o followUpQuery topic config (currentDepth + 1))
             else []
           ResearchNode.mk query searchResults relevantResults relevanceScores insights
             followUpQuestions currentDepth children
         else
           ResearchNode.mk query searchResults relevantResults relevanceScores insights
             [] currentDepth []
       else
         ResearchNode.mk query searchResults relevantResults relevanceScores []
           [] currentDepth []) := by
  conv_lhs => unfold performDeepResearch
  rfl

theorem allNodes_eq (node : ResearchNode) :
    allNodes node = node :: allNodesList node.children := by
  conv_lhs => unfold allNodes

theorem allNodesList_nil : allNodesList [] = [] := by
  unfold allNodesList
  rfl

theorem allNodesList_cons (x : ResearchNode) (rest : List ResearchNode) :
    allNodesList (x :: rest) = allNodes x ++ allNodesList rest := by
  conv_lhs => unfold allNodesList

theorem self_mem_allNodes (node : ResearchNode) : node ∈ allNodes node := by
  rw [allNodes_eq]
  simp

theorem mem_allNodesList (nd : ResearchNode) (l : List ResearchNode) :
    nd ∈ allNodesList l ↔ ∃ x ∈ l, nd ∈ allNodes x := by
  induction l with
  | nil => simp [allNodesList_nil]
  | cons x rest ih => simp [allNodesList_cons, ih]

theorem performDeepResearch_eq2 (o : ExternalCalls) (query topic : String)
    (config : ResearchConfig) (currentDepth : Int) :
    performDeepResearch o query topic config currentDepth =
      (if (filterRelevant (o.searchAndContents query config.resultsPerQuery)
            ((o.searchAndContents query config.resultsPerQuery).map
              (fun result => o.checkRelevance result topic query))).length > 0 then
        (if currentDepth < config.maxDepth - 1 then
          ResearchNode.mk query
            ((o.searchAndContents query config.resultsPerQuery).map toLightweightResult)
            ((filterRelevant (o.searchAndContents query config.resultsPerQuery)
                ((o.searchAndContents query config.resultsPerQuery).map
                  (fun result => o.checkRelevance result topic query))).map toLightweightResult)
            (recordScores
              ((o.searchAndContents query config.resultsPerQuery).map toLightweightResult)
              ((o.searchAndContents query config.resultsPerQuery).map
                (fun result => o.checkRelevance result topic query)))
            (generateInsights o
              (filterRelevant (o.searchAndContents query config.resultsPerQuery)
                ((o.searchAndContents query config.resultsPerQuery).map
                  (fun result => o.checkRelevance result topic query)))
              topic query)
            (o.generateFollowUpQuestionsCall
              (ResearchNode.mk query
                ((o.searchAndContents query config.resultsPerQuery).map toLightweightResult)
                ((filterRelevant (o.searchAndContents query config.resultsPerQuery)
                    ((o.searchAndContents query config.resultsPerQuery).map
                      (fun result => o.checkRelevance result topic query))).map toLightweightResult)
                (recordScores
                  ((o.searchAndContents query config.resultsPerQuery).map toLightweightResult)
                  ((o.searchAndContents query config.resultsPerQuery).map
                    (fun result => o.checkRelevance result topic query)))
                (generateInsights o
                  (filterRelevant (o.searchAndContents query config.resultsPerQuery)
                    ((o.searchAndContents query config.resultsPerQuery).map
                      (fun result => o.checkRelevance result topic query)))
                  topic query)
                [] currentDepth [])
              topic config.followUpQuestionsPerNode)
            currentDepth
            (if (o.generateFollowUpQuestionsCall
                (ResearchNode.mk query
                  ((o.searchAndContents query config.resultsPerQuery).map toLightweightResult)
                  ((filterRelevant (o.searchAndContents query config.resultsPerQuery)
                      ((o.searchAndContents query config.resultsPerQuery).map
                        (fun result => o.checkRelevance result topic query))).map toLightweightResult)
                  (recordScores
                    ((o.searchAndContents query config.resultsPerQuery).map toLightweightResult)
                    ((o.searchAndContents query config.resultsPerQuery).map
                      (fun result => o.checkRelevance result topic query)))
                  (generateInsights o
                    (filterRelevant (o.searchAndContents query config.resultsPerQuery)
                      ((o.searchAndContents query config.resultsPerQuery).map
                        (fun result => o.checkRelevance result topic query)))
                    topic query)
                  [] currentDepth [])
                topic config.followUpQuestionsPerNode).length > 0 then
              (o.generateFollowUpQuestionsCall
                (ResearchNode.mk query
                  ((o.searchAndContents query config.resultsPerQuery).map toLightweightResult)
                  ((filterRelevant (o.searchAndContents query config.resultsPerQuery)
                      ((o.searchAndContents query config.resultsPerQuery).map
                        (fun result => o.checkRelevance result topic query))).map toLightweightResult)
                  (recordScores
                    ((o.searchAndContents query config.resultsPerQuery).map toLightweightResult)
                    ((o.searchAndContents query config.resultsPerQuery).map
                      (fun result => o.checkRelevance result topic query)))
                  (generateInsights o
                    (filterRelevant (o.searchAndContents query config.resultsPerQuery)
                      ((o.searchAndContents query config.resultsPerQuery).map
                        (fun result => o.checkRelevance result topic query)))
                    topic query)
                  [] currentDepth [])
                topic config.followUpQuestionsPerNode).map
                (fun followUpQuery =>
                  performDeepResearch o followUpQuery topic config (currentDepth + 1))
            else [])
        else
          ResearchNode.mk query
            ((o.searchAndContents query config.resultsPerQuery).map toLightweightResult)
            ((filterRelevant (o.searchAndContents query config.resultsPerQuery)
                ((o.searchAndContents query config.resultsPerQuery).map
                  (fun result => o.checkRelevance result topic query))).map toLightweightResult)
            (recordScores
              ((o.searchAndContents query config.resultsPerQuery).map toLightweightResult)
              ((o.searchAndContents query config.resultsPerQuery).map
                (fun result => o.checkRelevance result topic query)))
            (generateInsights o
              (filterRelevant (o.searchAndContents query config.resultsPerQuery)
                ((o.searchAndContents query config.resultsPerQuery).map
                  (fun result => o.checkRelevance result topic query)))
              topic query)
            [] currentDepth [])
      else
        ResearchNode.mk query
          ((o.searchAndContents query config.resultsPerQuery).map toLightweightResult)
          ((filterRelevant (o.searchAndContents query config.resultsPerQuery)
              ((o.searchAndContents query config.resultsPerQuery).map
                (fun result => o.checkRelevance result topic query))).map toLightweightResult)
          (recordScores
            ((o.searchAndContents query config.resultsPerQuery).map toLightweightResult)
            ((o.searchAndContents query config.resultsPerQuery).map
              (fun result => o.checkRelevance result topic query)))
          [] [] currentDepth []) := by
  rw [performDeepResearch_eq]

theorem performDeepResearch_shape (o : ExternalCalls) (query topic : String)
    (config : ResearchConfig) (currentDepth : Int) :
    ∃ (insights followUpQuestions : List String) (children : List ResearchNode),
      performDeepResearch o query topic config currentDepth =
        ResearchNode.mk query
          ((o.searchAndContents query config.resultsPerQuery).map toLightweightResult)
          ((filterRelevant (o.searchAndContents query config.resultsPerQuery)
              ((o.searchAndContents query config.resultsPerQuery).map
                (fun result => o.checkRelevance result topic query))).map toLightweightResult)
          (recordScores
            ((o.searchAndContents query config.resultsPerQuery).map toLightweightResult)
            ((o.searchAndContents query config.resultsPerQuery).map
              (fun result => o.checkRelevance result topic query)))
          insights followUpQuestions currentDepth children ∧
      children.length = followUpQuestions.length ∧
      (¬ currentDepth < config.maxDepth - 1 → children = [] ∧ followUpQuestions = []) ∧
      ((∀ (rs : List RawSearchResult) (t q2 : String),
          rs ≠ [] → o.generateInsightsCall rs t q2 ≠ []) →
        insights = [] → children = [] ∧ followUpQuestions = []) ∧
      (children = [] ∨ (currentDepth < config.maxDepth - 1 ∧ ∃ qs : List String,
        children = qs.map (fun followUpQuery =>
          performDeepResearch o followUpQuery topic config (currentDepth + 1)))) := by
  rw [performDeepResearch_eq2]
  generalize o.searchAndContents query config.resultsPerQuery = fullResults
  generalize List.map (fun result => o.checkRelevance result topic query) fullResults =
    relevanceChecks
  generalize hrfr : filterRelevant fullResults relevanceChecks = relevantFullResults
  generalize hgi : generateInsights o relevantFullResults topic query = nodeInsights
  generalize o.generateFollowUpQuestionsCall
    (ResearchNode.mk query (List.map toLightweightResult fullResults)
      (List.map toLightweightResult relevantFullResults)
      (recordScores (List.map toLightweightResult fullResults) relevanceChecks)
      nodeInsights [] currentDepth [])
    topic config.followUpQuestionsPerNode = followUps
  by_cases hrel : relevantFullResults.length > 0
  · rw [if_pos hrel]
    have hins2 : (∀ (rs : List RawSearchResult) (t q2 : String),
        rs ≠ [] → o.generateInsightsCall rs t q2 ≠ []) → nodeInsights ≠ [] := by
      intro hins
      rw [← hgi, generateInsights, if_neg (by omega)]
      apply hins
      rw [← List.length_pos]
      omega
    by_cases hdeep : currentDepth < config.maxDepth - 1
    · rw [if_pos hdeep]
      by_cases hq : followUps.length > 0
      · rw [if_pos hq]
        refine ⟨nodeInsights, followUps, _, rfl, by simp, fun h => absurd hdeep h,
          fun hins h => absurd h (hins2 hins), Or.inr ⟨hdeep, _, rfl⟩⟩
      · rw [if_neg hq]
        have hqnil : followUps = [] := by
          rw [← List.length_eq_zero]
          omega
        exact ⟨nodeInsights, followUps, [], by rw [hqnil], by simp [hqnil],
          fun h => ⟨rfl, hqnil⟩, fun hins h => ⟨rfl, hqnil⟩, Or.inl rfl⟩
    · rw [if_neg hdeep]
      exact ⟨nodeInsights, [], [], rfl, rfl, fun h => ⟨rfl, rfl⟩,
        fun hins h => ⟨rfl, rfl⟩, Or.inl rfl⟩
  · rw [if_neg hrel]
    exact ⟨[], [], [], rfl, rfl, fun h => ⟨rfl, rfl⟩, fun hins h => ⟨rfl, rfl⟩, Or.inl rfl⟩

theorem performDeepResearch_depth (o : ExternalCalls) (query topic : String)
    (config : ResearchConfig) (currentDepth : Int) :
    (performDeepResearch o query topic config currentDepth).depth = currentDepth := by
  obtain ⟨ins, fu, ch, heq, -, -, -, -⟩ :=
    performDeepResearch_shape o query topic config currentDepth
  rw [heq]
  simp

theorem performDeepResearch_children_cases (o : ExternalCalls) (query topic : String)
    (config : ResearchConfig) (currentDepth : Int) :
    (performDeepResearch o query topic config currentDepth).children = [] ∨
    (currentDepth < config.maxDepth - 1 ∧ ∃ qs : List String,
      (performDeepResearch o query topic config currentDepth).children =
        qs.map (fun followUpQuery =>
          performDeepResearch o followUpQuery topic config (currentDepth + 1))) := by
  obtain ⟨ins, fu, ch, heq, -, -, -, hcases⟩ :=
    performDeepResearch_shape o query topic config currentDepth
  rw [heq]
  simpa using hcases

theorem performDeepResearch_children_map (o : ExternalCalls) (query topic : String)
    (config : ResearchConfig) (currentDepth : Int) :
    (performDeepResearch o query topic config currentDepth).children =
      (performDeepResearch o query topic config currentDepth).followUpQuestions.map
        (fun followUpQuery =>
          performDeepResearch o followUpQuery topic config (currentDepth + 1)) := by
  rw [performDeepResearch_eq2]
  generalize o.searchAndContents query config.resultsPerQuery = fullResults
  generalize List.map (fun result => o.checkRelevance result topic query) fullResults =
    relevanceChecks
  generalize filterRelevant fullResults relevanceChecks = relevantFullResults
  generalize generateInsights o relevantFullResults topic query = nodeInsights
  generalize o.generateFollowUpQuestionsCall
    (ResearchNode.mk query (List.map toLightweightResult fullResults)
      (List.map toLightweightResult relevantFullResults)
      (recordScores (List.map toLightweightResult fullResults) relevanceChecks)
      nodeInsights [] currentDepth [])
    topic config.followUpQuestionsPerNode = followUps
  by_cases hrel : relevantFullResults.length > 0
  · rw [if_pos hrel]
    by_cases hdeep : currentDepth < config.maxDepth - 1
    · rw [if_pos hdeep]
      by_cases hq : followUps.length > 0
      · rw [if_pos hq]
        simp
      · rw [if_neg hq]
        have hqnil : followUps = [] := by
          rw [← List.length_eq_zero]
          omega
        simp [hqnil]
    · rw [if_neg hdeep]
      simp
  · rw [if_neg hrel]
    simp

theorem mem_allNodes_build (o : ExternalCalls) (topic : String) (config : ResearchConfig) :
    ∀ (k : ℕ) (query : String) (currentDepth : Int),
      (config.maxDepth - 1 - currentDepth).toNat = k →
      ∀ nd ∈ allNodes (performDeepResearch o query topic config currentDepth),
        ∃ (q2 : String) (d2 : Int), currentDepth ≤ d2 ∧
          nd = performDeepResearch o q2 topic config d2 := by
  intro k
  induction k using Nat.strong_induction_on with
  | _ k ih =>
    intro query currentDepth hk nd hnd
    rw [allNodes_eq] at hnd
    rcases List.mem_cons.mp hnd with h | h
    · exact ⟨query, currentDepth, le_refl _, h⟩
    · rcases performDeepResearch_children_cases o query topic config currentDepth with hch | hch
      · rw [hch, allNodesList_nil] at h
        simp at h
      · obtain ⟨hdeep, qs, hch⟩ := hch
        rw [hch] at h
        rw [mem_allNodesList] at h
        obtain ⟨x, hx, hndx⟩ := h
        rw [List.mem_map] at hx
        obtain ⟨fq, _, hfq⟩ := hx
        subst hfq
        obtain ⟨q2, d2, hd2, heq⟩ :=
          ih (config.maxDepth - 1 - (currentDepth + 1)).toNat (by omega) fq
            (currentDepth + 1) rfl nd hndx
        exact ⟨q2, d2, by omega, heq⟩

/- ===================== Claim C4 ===================== -/

/-- Claim C4, counterexample: the claim states a build call with
`maxDepth < 1` fails with a `ConfigurationError` rather than returning
a node; but `performDeepResearch` performs no configuration validation
at all, and with `maxDepth = 0` (and a search returning no results) it
returns an ordinary leaf node. -/
theorem c4_configuration_error_counterexample :
    performDeepResearch
      { searchAndContents := fun _ _ => []
        checkRelevance := fun _ _ _ => { isRelevant := false, reasoning := "", relevanceScore := 0 }
        generateInsightsCall := fun _ _ _ => []
        generateFollowUpQuestionsCall := fun _ _ _ => [] }
      "q" "topic"
      { maxDepth := 0, resultsPerQuery := 3, followUpQuestionsPerNode := 2,
        concurrencyLimit := some 10 }
      0 =
    ResearchNode.mk "q" [] [] [] [] [] 0 [] := by
  rw [performDeepResearch_eq]
  simp [filterRelevant, recordScores]

/-- Claim C4 (amended): the engine never validates its configuration;
for every configuration with `maxDepth < 1` a build call at depth 0
succeeds and returns a node carrying the requested query at depth 0,
and — because `0 < maxDepth - 1` fails — the node has no follow-up
questions and no children. -/
theorem c4_no_validation (o : ExternalCalls) (query topic : String)
    (config : ResearchConfig) (hdepth : config.maxDepth < 1) :
    (performDeepResearch o query topic config 0).query = query ∧
    (performDeepResearch o query topic config 0).depth = 0 ∧
    (performDeepResearch o query topic config 0).followUpQuestions = [] ∧
    (performDeepResearch o query topic config 0).children = [] := by
  obtain ⟨ins, fu, ch, heq, hlen, hdeepimp, -, -⟩ :=
    performDeepResearch_shape o query topic config 0
  obtain ⟨hch, hfu⟩ := hdeepimp (by omega)
  rw [heq]
  simp [hch, hfu]

/-- Claim C4 witness: the amended statement applied to a concrete
oracle valuation and the configuration with `maxDepth = 0`. -/
theorem c4_no_validation_witness :
    (performDeepResearch
      { searchAndContents := fun _ _ => []
        checkRelevance := fun _ _ _ => { isRelevant := false, reasoning := "", relevanceScore := 0 }
        generateInsightsCall := fun _ _ _ => []
        generateFollowUpQuestionsCall := fun _ _ _ => [] }
      "q" "topic"
      { maxDepth := 0, resultsPerQuery := 3, followUpQuestionsPerNode := 2,
        concurrencyLimit := some 10 }
      0).query = "q" ∧
    (performDeepResearch
      { searchAndContents := fun _ _ => []
        checkRelevance := fun _ _ _ => { isRelevant := false, reasoning := "", relevanceScore := 0 }
        generateInsightsCall := fun _ _ _ => []
        generateFollowUpQuestionsCall := fun _ _ _ => [] }
      "q" "topic"
      { maxDepth := 0, resultsPerQuery := 3, followUpQuestionsPerNode := 2,
        concurrencyLimit := some 10 }
      0).depth = 0 ∧
    (performDeepResearch
      { searchAndContents := fun _ _ => []
        checkRelevance := fun _ _ _ => { isRelevant := false, reasoning := "", relevanceScore := 0 }
        generateInsightsCall := fun _ _ _ => []
        generateFollowUpQuestionsCall := fun _ _ _ => [] }
      "q" "topic"
      { maxDepth := 0, resultsPerQuery := 3, followUpQuestionsPerNode := 2,
        concurrencyLimit := some 10 }
      0).followUpQuestions = [] ∧
    (performDeepResearch
      { searchAndContents := fun _ _ => []
        checkRelevance := fun _ _ _ => { isRelevant := false, reasoning := "", relevanceScore := 0 }
        generateInsightsCall := fun _ _ _ => []
        generateFollowUpQuestionsCall := fun _ _ _ => [] }
      "q" "topic"
      { maxDepth := 0, resultsPerQuery := 3, followUpQuestionsPerNode := 2,
        concurrencyLimit := some 10 }
      0).children = [] :=
  c4_no_validation _ "q" "topic" _ (by norm_num)

/- ===================== Claim C6 ===================== -/

/-- Claim C6: in every tree built by `performDeepResearch`, each node's
children are exactly the recursive builds of its follow-up questions in
the same order — child i is the build of question i at the node's depth
plus one — hence each node has exactly one child per follow-up question
(same count); both lists are empty whenever the node's depth is at
least `maxDepth - 1` or its insights list is empty; consequently with
`maxDepth = 1` no node of a tree built at depth 0 has children. The
hypothesis `hins` records the schema constraint of the insight call
(its zod schema demands 3 to 5 insight strings, so a successful call on
a nonempty result list never returns an empty list). -/
theorem c6_children_match_questions (o : ExternalCalls) (query topic : String)
    (config : ResearchConfig) (currentDepth : Int)
    (hins : ∀ (rs : List RawSearchResult) (t q2 : String),
      rs ≠ [] → o.generateInsightsCall rs t q2 ≠ []) :
    (∀ nd ∈ allNodes (performDeepResearch o query topic config currentDepth),
      nd.children = nd.followUpQuestions.map
        (fun followUpQuery =>
          performDeepResearch o followUpQuery topic config (nd.depth + 1)) ∧
      nd.children.length = nd.followUpQuestions.length ∧
      ((config.maxDepth - 1 ≤ nd.depth ∨ nd.insights = []) →
        nd.children = [] ∧ nd.followUpQuestions = [])) ∧
    (config.maxDepth = 1 → currentDepth = 0 →
      ∀ nd ∈ allNodes (performDeepResearch o query topic config currentDepth),
        nd.children = [] ∧ nd.followUpQuestions = []) := by
  have hmain : ∀ nd ∈ allNodes (performDeepResearch o query topic config currentDepth),
      currentDepth ≤ nd.depth ∧
      (nd.children = nd.followUpQuestions.map
        (fun followUpQuery =>
          performDeepResearch o followUpQuery topic config (nd.depth + 1)) ∧
      nd.children.length = nd.followUpQuestions.length ∧
      ((config.maxDepth - 1 ≤ nd.depth ∨ nd.insights = []) →
        nd.children = [] ∧ nd.followUpQuestions = [])) := by
    intro nd hnd
    obtain ⟨q2, d2, hd2, heq⟩ :=
      mem_allNodes_build o topic config _ query currentDepth rfl nd hnd
    subst heq
    refine ⟨by rw [performDeepResearch_depth]; exact hd2, ?_, ?_⟩
    · simp only [performDeepResearch_depth]
      exact performDeepResearch_children_map o q2 topic config d2
    · obtain ⟨ins, fu, ch, heq2, hlen, hdeepimp, hinsimp, -⟩ :=
        performDeepResearch_shape o q2 topic config d2
      rw [heq2]
      simp only [ResearchNode.children_mk, ResearchNode.followUpQuestions_mk,
        ResearchNode.depth_mk, ResearchNode.insights_mk]
      refine ⟨hlen, fun h => ?_⟩
      rcases h with h | h
      · exact hdeepimp (by omega)
      · exact hinsimp hins h
  constructor
  · intro nd hnd
    exact (hmain nd hnd).2
  · intro hmax hd nd hnd
    refine (hmain nd hnd).2.2.2 (Or.inl ?_)
    have h1 := (hmain nd hnd).1
    omega

/-- Claim C6 witness: the statement applied to a concrete oracle
valuation whose insight call always returns three insights, at
`maxDepth = 2`, evaluated on the root node of the tree. -/
theorem c6_children_match_questions_witness :
    (performDeepResearch
      { searchAndContents := fun _ _ => []
        checkRelevance := fun _ _ _ => { isRelevant := false, reasoning := "", relevanceScore := 0 }
        generateInsightsCall := fun _ _ _ => ["i1", "i2", "i3"]
        generateFollowUpQuestionsCall := fun _ _ _ => [] }
      "q" "t"
      { maxDepth := 2, resultsPerQuery := 3, followUpQuestionsPerNode := 2,
        concurrencyLimit := some 10 }
      0).children.length =
    (performDeepResearch
      { searchAndContents := fun _ _ => []
        checkRelevance := fun _ _ _ => { isRelevant := false, reasoning := "", relevanceScore := 0 }
        generateInsightsCall := fun _ _ _ => ["i1", "i2", "i3"]
        generateFollowUpQuestionsCall := fun _ _ _ => [] }
      "q" "t"
      { maxDepth := 2, resultsPerQuery := 3, followUpQuestionsPerNode := 2,
        concurrencyLimit := some 10 }
      0).followUpQuestions.length :=
  ((c6_children_match_questions _ "q" "t" _ 0 (fun rs t q2 h => by simp)).1 _
    (self_mem_allNodes _)).2.1

/- ===================== Score map lemmas ===================== -/

theorem mapGet_mapSet_self {α : Type} (m : List (String × α)) (k : String) (v : α) :
    mapGet (mapSet m k v) k = some v := by
  induction m with
  | nil => simp [mapSet, mapGet]
  | cons p rest ih =>
    obtain ⟨k2, v2⟩ := p
    by_cases h : k2 = k
    · simp [mapSet, mapGet, h]
    · simp [mapSet, mapGet, h, ih]

theorem mapGet_mapSet_other {α : Type} (m : List (String × α)) (k k2 : String) (v : α)
    (h : k2 ≠ k) : mapGet (mapSet m k v) k2 = mapGet m k2 := by
  induction m with
  | nil => simp [mapSet, mapGet, h, Ne.symm h]
  | cons p rest ih =>
    obtain ⟨k3, v3⟩ := p
    by_cases h3 : k3 = k
    · subst h3
      simp [mapSet, mapGet, h, Ne.symm h]
    · by_cases h4 : k3 = k2
      · subst h4
        simp [mapSet, mapGet, h3]
      · simp [mapSet, mapGet, h3, h4, ih]

theorem recordScores_get_notmem
    (pairs : List (LightweightSearchResult × RelevanceCheckResult))
    (m : List (String × ℚ)) (k : String)
    (h : k ∉ pairs.map (fun p => p.1.url)) :
    mapGet (pairs.foldl (fun m2 p => mapSet m2 p.1.url p.2.relevanceScore) m) k = mapGet m k := by
  induction pairs generalizing m with
  | nil => simp
  | cons p rest ih =>
    simp only [List.map_cons, List.mem_cons, not_or] at h
    rw [List.foldl_cons, ih _ h.2]
    exact mapGet_mapSet_other m p.1.url k p.2.relevanceScore h.1

theorem recordScores_get_mem
    (pairs : List (LightweightSearchResult × RelevanceCheckResult))
    (m : List (String × ℚ)) (p : LightweightSearchResult × RelevanceCheckResult)
    (hp : p ∈ pairs)
    (hnodup : (pairs.map (fun p2 => p2.1.url)).Nodup) :
    mapGet (pairs.foldl (fun m2 p2 => mapSet m2 p2.1.url p2.2.relevanceScore) m) p.1.url =
      some p.2.relevanceScore := by
  induction pairs generalizing m with
  | nil => simp at hp
  | cons q rest ih =>
    rw [List.foldl_cons]
    rcases List.mem_cons.mp hp with h | h
    · subst h
      have hnot : p.1.url ∉ rest.map (fun p2 => p2.1.url) := by
        simp only [List.map_cons, List.nodup_cons] at hnodup
        exact hnodup.1
      rw [recordScores_get_notmem rest _ _ hnot]
      exact mapGet_mapSet_self m p.1.url p.2.relevanceScore
    · apply ih
      · exact h
      · simp only [List.map_cons, List.nodup_cons] at hnodup
        exact hnodup.2

theorem recordScores_get_isSome
    (pairs : List (LightweightSearchResult × RelevanceCheckResult))
    (m : List (String × ℚ)) (k : String)
    (h : k ∈ pairs.map (fun p => p.1.url) ∨ (mapGet m k).isSome) :
    (mapGet (pairs.foldl (fun m2 p => mapSet m2 p.1.url p.2.relevanceScore) m) k).isSome := by
  induction pairs generalizing m with
  | nil =>
    rcases h with h | h
    · simp at h
    · simpa using h
  | cons q rest ih =>
    rw [List.foldl_cons]
    apply ih
    rcases h with h | h
    · simp only [List.map_cons, List.mem_cons] at h
      rcases h with h | h
      · right
        subst h
        rw [mapGet_mapSet_self]
        rfl
      · left
        exact h
    · right
      by_cases hk : k = q.1.url
      · subst hk
        rw [mapGet_mapSet_self]
        rfl
      · rw [mapGet_mapSet_other _ _ _ _ hk]
        exact h

theorem map_fst_zip_sublist {α β : Type} (l1 : List α) (l2 : List β) :
    ((l1.zip l2).map Prod.fst).Sublist l1 := by
  induction l1 generalizing l2 with
  | nil => simp
  | cons a l1 ih =>
    cases l2 with
    | nil => simp
    | cons b l2 =>
      rw [List.zip_cons_cons, List.map_cons]
      exact (ih l2).cons₂ a

theorem filterRelevant_sublist (frs : List RawSearchResult)
    (cks : List RelevanceCheckResult) : (filterRelevant frs cks).Sublist frs := by
  unfold filterRelevant
  exact ((List.filter_sublist _).map Prod.fst).trans (map_fst_zip_sublist frs cks)

theorem mem_filterRelevant (frs : List RawSearchResult) (cks : List RelevanceCheckResult)
    (r : RawSearchResult) (hr : r ∈ filterRelevant frs cks) :
    ∃ ck, (r, ck) ∈ frs.zip cks ∧ ck.isRelevant ∧ (70 : ℚ) ≤ ck.relevanceScore := by
  unfold filterRelevant at hr
  rw [List.mem_map] at hr
  obtain ⟨p, hp, hfst⟩ := hr
  obtain ⟨r2, ck⟩ := p
  rw [List.mem_filter] at hp
  obtain ⟨hp1, hp2⟩ := hp
  simp only at hfst
  subst hfst
  simp only [Bool.and_eq_true, decide_eq_true_eq] at hp2
  exact ⟨ck, hp1, hp2.1, hp2.2⟩

theorem mem_zip_left {α β : Type} (l1 : List α) (l2 : List β)
    (h : l1.length ≤ l2.length) (a : α) (ha : a ∈ l1) : ∃ b, (a, b) ∈ l1.zip l2 := by
  induction l1 generalizing l2 with
  | nil => simp at ha
  | cons x l1 ih =>
    cases l2 with
    | nil => simp at h
    | cons y l2 =>
      rcases List.mem_cons.mp ha with hx | hx
      · subst hx
        exact ⟨y, by simp⟩
      · obtain ⟨b, hb⟩ := ih l2 (by simpa using h) hx
        exact ⟨b, by simp [hb]⟩

/- ===================== Claim C5 ===================== -/

/-- Claim C5, counterexample: with duplicate provider URLs in one node,
a relevant result's URL can map to a score below 70: the provider
returns two results with url "u", the first relevant with score 80, the
second irrelevant with score 10; the second write overwrites the first,
so the node keeps the first result as relevant while
`relevanceScores["u"]` is 10. -/
theorem c5_duplicate_url_counterexample :
    (performDeepResearch
      { searchAndContents := fun _ _ =>
          [{ title := some "A", url := "u", text := none, score := none },
           { title := some "B", url := "u", text := none, score := none }]
        checkRelevance := fun r _ _ =>
          if r.title = some "A" then { isRelevant := true, reasoning := "", relevanceScore := 80 }
          else { isRelevant := false, reasoning := "", relevanceScore := 10 }
        generateInsightsCall := fun _ _ _ => ["i1", "i2", "i3"]
        generateFollowUpQuestionsCall := fun _ _ _ => [] }
      "q" "t"
      { maxDepth := 1, resultsPerQuery := 2, followUpQuestionsPerNode := 2,
        concurrencyLimit := some 10 }
      0).relevantResults =
      [{ title := "A", url := "u", snippet := [], score := none }] ∧
    mapGet (performDeepResearch
      { searchAndContents := fun _ _ =>
          [{ title := some "A", url := "u", text := none, score := none },
           { title := some "B", url := "u", text := none, score := none }]
        checkRelevance := fun r _ _ =>
          if r.title = some "A" then { isRelevant := true, reasoning := "", relevanceScore := 80 }
          else { isRelevant := false, reasoning := "", relevanceScore := 10 }
        generateInsightsCall := fun _ _ _ => ["i1", "i2", "i3"]
        generateFollowUpQuestionsCall := fun _ _ _ => [] }
      "q" "t"
      { maxDepth := 1, resultsPerQuery := 2, followUpQuestionsPerNode := 2,
        concurrencyLimit := some 10 }
      0).relevanceScores "u" = some 10 ∧
    ¬ (70 : ℚ) ≤ 10 := by
  rw [performDeepResearch_eq]
  refine ⟨?_, ?_, by norm_num⟩ <;> decide

/-- Claim C5: in every tree built by `performDeepResearch`, each node's
`relevantResults` is the image of the index-filter keeping exactly the
raw results whose relevance check reported relevant with score at least
70, hence an order-preserving subsequence of `searchResults`; every
search result's URL has an entry in `relevanceScores`; and — when the
provider returned pairwise distinct URLs within the node — every
relevant result's URL maps to a score of at least 70 (with duplicate
URLs the later write overwrites the earlier one, which is what the
counterexample exploits). -/
theorem c5_relevant_subset (o : ExternalCalls) (query topic : String)
    (config : ResearchConfig) (currentDepth : Int) :
    ∀ nd ∈ allNodes (performDeepResearch o query topic config currentDepth),
      (∃ (fullResults : List RawSearchResult) (checks : List RelevanceCheckResult),
        nd.searchResults = fullResults.map toLightweightResult ∧
        nd.relevantResults = (filterRelevant fullResults checks).map toLightweightResult ∧
        nd.relevanceScores = recordScores (fullResults.map toLightweightResult) checks) ∧
      nd.relevantResults.Sublist nd.searchResults ∧
      (∀ r ∈ nd.searchResults, (mapGet nd.relevanceScores r.url).isSome) ∧
      ((nd.searchResults.map (fun r => r.url)).Nodup →
        ∀ r ∈ nd.relevantResults,
          ∃ sc, mapGet nd.relevanceScores r.url = some sc ∧ (70 : ℚ) ≤ sc) := by
  intro nd hnd
  obtain ⟨q2, d2, hd2, heq⟩ :=
    mem_allNodes_build o topic config _ query currentDepth rfl nd hnd
  obtain ⟨ins, fu, ch, heq2, -, -, -, -⟩ := performDeepResearch_shape o q2 topic config d2
  subst heq
  rw [heq2]
  simp only [ResearchNode.searchResults_mk, ResearchNode.relevantResults_mk,
    ResearchNode.relevanceScores_mk]
  have hlen : ((o.searchAndContents q2 config.resultsPerQuery).map
      (fun result => o.checkRelevance result topic q2)).length =
      (o.searchAndContents q2 config.resultsPerQuery).length := by
    simp
  refine ⟨⟨_, _, rfl, rfl, rfl⟩, (filterRelevant_sublist _ _).map _, ?_, ?_⟩
  · intro r hr
    rw [List.mem_map] at hr
    obtain ⟨r0, hr0, hlight⟩ := hr
    subst hlight
    unfold recordScores
    apply recordScores_get_isSome
    left
    obtain ⟨ck, hck⟩ := mem_zip_left
      ((o.searchAndContents q2 config.resultsPerQuery).map toLightweightResult)
      ((o.searchAndContents q2 config.resultsPerQuery).map
        (fun result => o.checkRelevance result topic q2))
      (by simp) (toLightweightResult r0) (List.mem_map_of_mem _ hr0)
    rw [List.mem_map]
    exact ⟨(toLightweightResult r0, ck), hck, rfl⟩
  · intro hnodup r hr
    rw [List.mem_map] at hr
    obtain ⟨r0, hr0, hlight⟩ := hr
    subst hlight
    obtain ⟨ck, hmem, hrel, hsc⟩ := mem_filterRelevant _ _ r0 hr0
    refine ⟨ck.relevanceScore, ?_, hsc⟩
    unfold recordScores
    have hpmem : (toLightweightResult r0, ck) ∈
        ((o.searchAndContents q2 config.resultsPerQuery).map toLightweightResult).zip
          ((o.searchAndContents q2 config.resultsPerQuery).map
            (fun result => o.checkRelevance result topic q2)) := by
      rw [List.zip_map_left, List.mem_map]
      exact ⟨(r0, ck), hmem, rfl⟩
    have hnodup2 : ((((o.searchAndContents q2 config.resultsPerQuery).map
        toLightweightResult).zip
          ((o.searchAndContents q2 config.resultsPerQuery).map
            (fun result => o.checkRelevance result topic q2))).map
        (fun p2 => p2.1.url)).Nodup := by
      have hmfst : ((((o.searchAndContents q2 config.resultsPerQuery).map
          toLightweightResult).zip
            ((o.searchAndContents q2 config.resultsPerQuery).map
              (fun result => o.checkRelevance result topic q2))).map Prod.fst) =
          (o.searchAndContents q2 config.resultsPerQuery).map toLightweightResult :=
        List.map_fst_zip _ _ (by simp)
      rw [show (fun (p2 : LightweightSearchResult × RelevanceCheckResult) => p2.1.url) =
          (fun x : LightweightSearchResult => x.url) ∘ Prod.fst from rfl,
        ← List.map_map, hmfst]
      exact hnodup
    exact recordScores_get_mem _ [] (toLightweightResult r0, ck) hpmem hnodup2

/-- Claim C5 witness: the guarantee applied to a tree whose single node
has one relevant search result with url "u" and score 80; the
membership and distinct-URL hypotheses are discharged by evaluation. -/
theorem c5_relevant_subset_witness :
    ∃ sc, mapGet (performDeepResearch
      { searchAndContents := fun _ _ =>
          [{ title := some "A", url := "u", text := none, score := none }]
        checkRelevance := fun _ _ _ =>
          { isRelevant := true, reasoning := "", relevanceScore := 80 }
        generateInsightsCall := fun _ _ _ => ["i1", "i2", "i3"]
        generateFollowUpQuestionsCall := fun _ _ _ => [] }
      "q" "t"
      { maxDepth := 1, resultsPerQuery := 1, followUpQuestionsPerNode := 2,
        concurrencyLimit := some 10 }
      0).relevanceScores "u" = some sc ∧ (70 : ℚ) ≤ sc :=
  (c5_relevant_subset
    { searchAndContents := fun _ _ =>
        [{ title := some "A", url := "u", text := none, score := none }]
      checkRelevance := fun _ _ _ =>
        { isRelevant := true, reasoning := "", relevanceScore := 80 }
      generateInsightsCall := fun _ _ _ => ["i1", "i2", "i3"]
      generateFollowUpQuestionsCall := fun _ _ _ => [] }
    "q" "t"
    { maxDepth := 1, resultsPerQuery := 1, followUpQuestionsPerNode := 2,
      concurrencyLimit := some 10 }
    0 _ (self_mem_allNodes _)).2.2.2
    (by rw [performDeepResearch_eq]; decide)
    { title := "A", url := "u", snippet := [], score := none }
    (by rw [performDeepResearch_eq]; decide)

/- ===================== Flattener lemmas ===================== -/

theorem collectFromNode_eq (acc : FlattenAcc) (node : ResearchNode) :
    collectFromNode acc node =
      collectChildren
        { totalNodes := acc.totalNodes + 1
          totalRelevantResults := acc.totalRelevantResults + node.relevantResults.length
          allInsights := acc.allInsights ++ node.insights
          allSources := acc.allSources ++ nodeSources node }
        node.children := by
  conv_lhs => unfold collectFromNode

theorem collectChildren_nil (acc : FlattenAcc) : collectChildren acc [] = acc := by
  unfold collectChildren
  rfl

theorem collectChildren_cons (acc : FlattenAcc) (child : ResearchNode)
    (rest : List ResearchNode) :
    collectChildren acc (child :: rest) = collectChildren (collectFromNode acc child) rest := by
  conv_lhs => unfold collectChildren

mutual

theorem collectFromNode_spec (acc : FlattenAcc) (node : ResearchNode) :
    collectFromNode acc node =
      { totalNodes := acc.totalNodes + (allNodes node).length
        totalRelevantResults := acc.totalRelevantResults +
          ((allNodes node).map (fun nd => nd.relevantResults.length)).sum
        allInsights := acc.allInsights ++ ((allNodes node).map (fun nd => nd.insights)).flatten
        allSources := acc.allSources ++ ((allNodes node).map nodeSources).flatten } := by
  rw [collectFromNode_eq, collectChildren_spec, allNodes_eq]
  simp [FlattenAcc.mk.injEq, List.append_assoc]
  omega
termination_by sizeOf node
decreasing_by
  all_goals cases node with
  | mk q s r sc i f d c => simp [ResearchNode.children]

theorem collectChildren_spec (acc : FlattenAcc) (l : List ResearchNode) :
    collectChildren acc l =
      { totalNodes := acc.totalNodes + (allNodesList l).length
        totalRelevantResults := acc.totalRelevantResults +
          ((allNodesList l).map (fun nd => nd.relevantResults.length)).sum
        allInsights := acc.allInsights ++ ((allNodesList l).map (fun nd => nd.insights)).flatten
        allSources := acc.allSources ++ ((allNodesList l).map nodeSources).flatten } := by
  match l with
  | [] =>
    rw [collectChildren_nil, allNodesList_nil]
    simp
  | child :: rest =>
    rw [collectChildren_cons, collectFromNode_spec, collectChildren_spec, allNodesList_cons]
    simp [FlattenAcc.mk.injEq, List.append_assoc]
    omega
termination_by sizeOf l
decreasing_by
  all_goals simp
  omega

end

/- ===================== Claim C8 ===================== -/

/-- Claim C8: `summarizeResearch` flattens the tree in depth-first
pre-order (each node listed before its children, children in order,
which is exactly `allNodes`): `totalNodesExplored` is the number of
nodes of the tree, `totalRelevantResults` is the sum of the relevant
result counts over all nodes, `allInsights` concatenates the nodes'
insights in traversal order, and `allSources` contributes one
`SourceInfo` per relevant result (with score `relevanceScores[url]`
defaulting to 0 when absent, per `nodeSources`); on a single-node tree
with no relevant results it yields one explored node, zero relevant
results and empty insight and source lists. -/
theorem c8_summarize_preorder (topic : String) (tree : ResearchNode) :
    summarizeResearch topic tree =
      { originalTopic := topic
        totalNodesExplored := (allNodes tree).length
        totalRelevantResults := ((allNodes tree).map (fun nd => nd.relevantResults.length)).sum
        allInsights := ((allNodes tree).map (fun nd => nd.insights)).flatten
        allSources := ((allNodes tree).map nodeSources).flatten
        researchTree := tree } ∧
    (∀ node : ResearchNode, allNodes node = node :: allNodesList node.children) ∧
    summarizeResearch "t" (ResearchNode.mk "q" [] [] [] [] [] 0 []) =
      { originalTopic := "t"
        totalNodesExplored := 1
        totalRelevantResults := 0
        allInsights := []
        allSources := []
        researchTree := ResearchNode.mk "q" [] [] [] [] [] 0 [] } := by
  refine ⟨?_, allNodes_eq, ?_⟩
  · rw [summarizeResearch, collectFromNode_spec]
    simp
  · rw [summarizeResearch, collectFromNode_spec, allNodes_eq]
    simp [ResearchNode.children, allNodesList_nil, nodeSources]

/- ===================== Deduplication lemmas (workflow.ts 203-219) ===================== -/

theorem mapGet_eq_none_iff {α : Type} (m : List (String × α)) (k : String) :
    mapGet m k = none ↔ k ∉ m.map Prod.fst := by
  induction m with
  | nil => simp [mapGet]
  | cons p rest ih =>
    obtain ⟨k2, v⟩ := p
    by_cases h : k2 = k
    · subst h
      simp [mapGet]
    · simp [mapGet, h, ih, Ne.symm h]

theorem map_fst_mapSet_mem {α : Type} (m : List (String × α)) (k : String) (v : α)
    (h : k ∈ m.map Prod.fst) : (mapSet m k v).map Prod.fst = m.map Prod.fst := by
  induction m with
  | nil => simp at h
  | cons p rest ih =>
    obtain ⟨k2, v2⟩ := p
    by_cases h2 : k2 = k
    · subst h2
      simp [mapSet]
    · simp only [List.map_cons, List.mem_cons] at h
      rcases h with h | h
      · exact absurd h.symm h2
      · simp [mapSet, h2, ih h]

theorem map_fst_mapSet_notmem {α : Type} (m : List (String × α)) (k : String) (v : α)
    (h : k ∉ m.map Prod.fst) : (mapSet m k v).map Prod.fst = m.map Prod.fst ++ [k] := by
  induction m with
  | nil => simp [mapSet]
  | cons p rest ih =>
    obtain ⟨k2, v2⟩ := p
    simp only [List.map_cons, List.mem_cons, not_or] at h
    simp [mapSet, show ¬k2 = k from fun hh => h.1 hh.symm, ih h.2]

theorem mapGet_dedupStep_other (m : List (String × SourceInfo)) (s : SourceInfo)
    (u : String) (hu : s.url ≠ u) : mapGet (dedupStep m s) u = mapGet m u := by
  cases hms : mapGet m s.url with
  | none => simp [dedupStep, hms, mapGet_mapSet_other m s.url u s (Ne.symm hu)]
  | some v2 =>
    simp only [dedupStep, hms]
    split
    · exact mapGet_mapSet_other m s.url u s (Ne.symm hu)
    · rfl

theorem foldl_dedupStep_get_some (l : List SourceInfo) (m : List (String × SourceInfo))
    (u : String) (v : SourceInfo) (hm : mapGet m u = some v) :
    mapGet (l.foldl dedupStep m) u =
      some ((l.filter (fun s2 => decide (s2.url = u))).foldl pickBetter v) := by
  induction l generalizing m v with
  | nil => simp [hm]
  | cons s rest ih =>
    rw [List.foldl_cons]
    by_cases hu : s.url = u
    · subst hu
      rw [List.filter_cons_of_pos (by simp)]
      simp only [dedupStep, hm]
      by_cases hcmp : v.relevanceScore < s.relevanceScore
      · rw [if_pos hcmp, ih (mapSet m s.url s) s (mapGet_mapSet_self m s.url s),
          List.foldl_cons]
        have hpb : pickBetter v s = s := by simp [pickBetter, hcmp]
        rw [hpb]
      · rw [if_neg hcmp, ih m v hm, List.foldl_cons]
        have hpb : pickBetter v s = v := by simp [pickBetter, hcmp]
        rw [hpb]
    · rw [List.filter_cons_of_neg (by simp [hu])]
      exact ih (dedupStep m s) v ((mapGet_dedupStep_other m s u hu).trans hm)

theorem foldl_dedupStep_get_none (l : List SourceInfo) (m : List (String × SourceInfo))
    (u : String) (hm : mapGet m u = none) :
    mapGet (l.foldl dedupStep m) u =
      match l.filter (fun s2 => decide (s2.url = u)) with
      | [] => none
      | s :: g => some (g.foldl pickBetter s) := by
  induction l generalizing m with
  | nil => simpa using hm
  | cons s rest ih =>
    rw [List.foldl_cons]
    by_cases hu : s.url = u
    · subst hu
      rw [List.filter_cons_of_pos (by simp)]
      have hstep : dedupStep m s = mapSet m s.url s := by
        simp [dedupStep, hm]
      rw [hstep,
        foldl_dedupStep_get_some rest (mapSet m s.url s) s.url s (mapGet_mapSet_self m s.url s)]
    · rw [List.filter_cons_of_neg (by simp [hu])]
      exact ih (dedupStep m s) ((mapGet_dedupStep_other m s u hu).trans hm)

theorem map_fst_foldl_dedupStep (l : List SourceInfo) (m : List (String × SourceInfo)) :
    (l.foldl dedupStep m).map Prod.fst =
      l.foldl (fun keys source => if source.url ∈ keys then keys else keys ++ [source.url])
        (m.map Prod.fst) := by
  induction l generalizing m with
  | nil => rfl
  | cons s rest ih =>
    rw [List.foldl_cons, List.foldl_cons, ih]
    congr 1
    by_cases hmem : s.url ∈ m.map Prod.fst
    · rw [if_pos hmem]
      cases hms : mapGet m s.url with
      | none => exact absurd hmem ((mapGet_eq_none_iff m s.url).1 hms)
      | some v =>
        simp only [dedupStep, hms]
        split
        · exact map_fst_mapSet_mem m s.url s hmem
        · rfl
    · rw [if_neg hmem]
      have hms : mapGet m s.url = none := (mapGet_eq_none_iff m s.url).2 hmem
      simp [dedupStep, hms, map_fst_mapSet_notmem m s.url s hmem]

theorem pickBetter_le (s t : SourceInfo) :
    s.relevanceScore ≤ (pickBetter s t).relevanceScore ∧
    t.relevanceScore ≤ (pickBetter s t).relevanceScore := by
  by_cases hc : s.relevanceScore < t.relevanceScore
  · have h2 : pickBetter s t = t := by simp [pickBetter, hc]
    rw [h2]
    exact ⟨le_of_lt hc, le_refl _⟩
  · have h2 : pickBetter s t = s := by simp [pickBetter, hc]
    rw [h2]
    exact ⟨le_refl _, le_of_not_lt hc⟩

theorem foldl_pickBetter_mem (g : List SourceInfo) (s : SourceInfo) :
    g.foldl pickBetter s ∈ s :: g := by
  induction g generalizing s with
  | nil => simp
  | cons t g2 ih =>
    rw [List.foldl_cons]
    rcases List.mem_cons.1 (ih (pickBetter s t)) with h | h
    · rw [h]
      by_cases hc : s.relevanceScore < t.relevanceScore
      · simp [pickBetter, hc]
      · simp [pickBetter, hc]
    · simp [h]

theorem foldl_pickBetter_max (g : List SourceInfo) (s : SourceInfo) :
    ∀ y ∈ s :: g, y.relevanceScore ≤ (g.foldl pickBetter s).relevanceScore := by
  induction g generalizing s with
  | nil =>
    intro y hy
    rw [List.mem_singleton] at hy
    rw [hy]
    exact le_refl _
  | cons t g2 ih =>
    intro y hy
    rw [List.foldl_cons]
    have hbase := ih (pickBetter s t) (pickBetter s t) (List.mem_cons_self _ _)
    rcases List.mem_cons.1 hy with hy | hy
    · rw [hy]
      exact le_trans (pickBetter_le s t).1 hbase
    · rcases List.mem_cons.1 hy with hy2 | hy2
      · rw [hy2]
        exact le_trans (pickBetter_le s t).2 hbase
      · exact ih (pickBetter s t) y (List.mem_cons_of_mem _ hy2)

theorem foldl_pickBetter_find (g : List SourceInfo) (s : SourceInfo) :
    (s :: g).find?
        (fun x => decide ((g.foldl pickBetter s).relevanceScore ≤ x.relevanceScore)) =
      some (g.foldl pickBetter s) := by
  induction g generalizing s with
  | nil =>
    rw [List.foldl_nil]
    rw [List.find?_cons_of_pos _ (by simp)]
  | cons t g2 ih =>
    rw [List.foldl_cons]
    by_cases hst : s.relevanceScore < t.relevanceScore
    · have hpb : pickBetter s t = t := by simp [pickBetter, hst]
      rw [hpb]
      have hres : t.relevanceScore ≤ (g2.foldl pickBetter t).relevanceScore :=
        foldl_pickBetter_max g2 t t (List.mem_cons_self _ _)
      have hns : ¬ ((g2.foldl pickBetter t).relevanceScore ≤ s.relevanceScore) := by
        intro hle
        linarith
      rw [List.find?_cons_of_neg _ (by simpa using hns)]
      exact ih t
    · have hpb : pickBetter s t = s := by simp [pickBetter, hst]
      rw [hpb]
      have h2 := ih s
      by_cases hps : (g2.foldl pickBetter s).relevanceScore ≤ s.relevanceScore
      · rw [List.find?_cons_of_pos _ (by simpa using hps)] at h2
        have hress := Option.some.inj h2
        rw [List.find?_cons_of_pos _ (by rw [← hress]; simp)]
        exact h2
      · rw [List.find?_cons_of_neg _ (by simpa using hps)] at h2
        have hts : t.relevanceScore ≤ s.relevanceScore := le_of_not_lt hst
        have hpt : ¬ ((g2.foldl pickBetter s).relevanceScore ≤ t.relevanceScore) := by
          intro hle
          exact hps (le_trans hle hts)
        rw [List.find?_cons_of_neg _ (by simpa using hps),
          List.find?_cons_of_neg _ (by simpa using hpt)]
        exact h2

theorem scoreDescLE_trans : ∀ a b c : SourceInfo,
    scoreDescLE a b = true → scoreDescLE b c = true → scoreDescLE a c = true := by
  intro a b c hab hbc
  simp only [scoreDescLE, decide_eq_true_eq] at hab hbc ⊢
  exact le_trans hbc hab

theorem scoreDescLE_total : ∀ a b : SourceInfo,
    (scoreDescLE a b || scoreDescLE b a) = true := by
  intro a b
  rcases le_total a.relevanceScore b.relevanceScore with h | h <;> simp [scoreDescLE, h]

theorem dedupSources_pair_same_url (a b : SourceInfo) (hurl : b.url = a.url)
    (hlt : a.relevanceScore < b.relevanceScore) : dedupSources [a, b] = [b] := by
  have h1 : ([a, b].foldl dedupStep []) = [(a.url, b)] := by
    simp [dedupStep, mapGet, mapSet, hurl, hlt]
  show (([a, b].foldl dedupStep []).map Prod.snd).mergeSort scoreDescLE = [b]
  rw [h1]
  simp [List.mergeSort_singleton]

/- ===================== Claim C7 ===================== -/

/-- Claim C7: deduplication of the combined source list groups entries by
url (the map holds one entry per distinct url, keys in first-occurrence
order), keeps for each group the entry with the strictly greatest
relevance score with the first-seen entry winning ties (the kept entry is
the group's `pickBetter` fold, it dominates every entry of its url group,
and it is the first group entry attaining the maximal score), then sorts
the kept entries by relevance score descending with a stable sort (the
output is a permutation of the kept entries, pairwise descending, and any
two kept entries whose grouping order already agrees with the comparator
keep their relative order); of two sources with the same url and scores
40 and 85, only the score-85 entry survives. -/
theorem c7_source_dedup (allSources : List SourceInfo) :
    (∀ u : String,
      mapGet (allSources.foldl dedupStep []) u =
        match allSources.filter (fun s2 => decide (s2.url = u)) with
        | [] => none
        | s :: g => some (g.foldl pickBetter s)) ∧
    (∀ u : String, ∀ v : SourceInfo,
      mapGet (allSources.foldl dedupStep []) u = some v →
        (∀ y ∈ allSources, y.url = u → y.relevanceScore ≤ v.relevanceScore) ∧
        (allSources.filter (fun s2 => decide (s2.url = u))).find?
            (fun x => decide (v.relevanceScore ≤ x.relevanceScore)) = some v) ∧
    (allSources.foldl dedupStep []).map Prod.fst = firstOccurrenceUrls allSources ∧
    (dedupSources allSources).Perm ((allSources.foldl dedupStep []).map Prod.snd) ∧
    (dedupSources allSources).Pairwise
      (fun a b => b.relevanceScore ≤ a.relevanceScore) ∧
    (∀ a b : SourceInfo, b.relevanceScore ≤ a.relevanceScore →
      [a, b].Sublist ((allSources.foldl dedupStep []).map Prod.snd) →
      [a, b].Sublist (dedupSources allSources)) ∧
    dedupSources
        [{ title := "A", url := "u", snippet := [], query := "q", relevanceScore := 40 },
         { title := "B", url := "u", snippet := [], query := "q", relevanceScore := 85 }] =
      [{ title := "B", url := "u", snippet := [], query := "q", relevanceScore := 85 }] := by
  refine ⟨fun u => foldl_dedupStep_get_none allSources [] u rfl, ?_, ?_, ?_, ?_, ?_, ?_⟩
  · intro u v hv
    rw [foldl_dedupStep_get_none allSources [] u rfl] at hv
    cases hf : allSources.filter (fun s2 => decide (s2.url = u)) with
    | nil =>
      rw [hf] at hv
      simp at hv
    | cons s g =>
      rw [hf] at hv
      have hv2 : v = g.foldl pickBetter s := (Option.some.inj hv).symm
      constructor
      · intro y hy hyu
        have hyf : y ∈ allSources.filter (fun s2 => decide (s2.url = u)) := by
          rw [List.mem_filter]
          exact ⟨hy, by simp [hyu]⟩
        rw [hf] at hyf
        rw [hv2]
        exact foldl_pickBetter_max g s y hyf
      · rw [hv2]
        exact foldl_pickBetter_find g s
  · rw [map_fst_foldl_dedupStep]
    rfl
  · exact List.mergeSort_perm _ _
  · refine (List.sorted_mergeSort scoreDescLE_trans scoreDescLE_total _).imp ?_
    intro a b h
    simpa [scoreDescLE] using h
  · intro a b hab hsub
    exact List.pair_sublist_mergeSort scoreDescLE_trans scoreDescLE_total
      (by simpa [scoreDescLE] using hab) hsub
  · exact dedupSources_pair_same_url _ _ rfl (by norm_num)

/-- Witness for C7 at a concrete two-source list with a shared url: the
kept entry for url u is the score-85 entry, and it is found first in its
group among entries of maximal score. -/
theorem c7_source_dedup_witness :
    (([{ title := "A", url := "u", snippet := [], query := "q", relevanceScore := 40 },
       { title := "B", url := "u", snippet := [], query := "q", relevanceScore := 85 }]
        : List SourceInfo).filter (fun s2 => decide (s2.url = "u"))).find?
        (fun x => decide
          (SourceInfo.relevanceScore
              { title := "B", url := "u", snippet := [], query := "q", relevanceScore := 85 } ≤
            x.relevanceScore)) =
      some { title := "B", url := "u", snippet := [], query := "q", relevanceScore := 85 } :=
  ((c7_source_dedup
      [{ title := "A", url := "u", snippet := [], query := "q", relevanceScore := 40 },
       { title := "B", url := "u", snippet := [], query := "q", relevanceScore := 85 }]).2.1
    "u" { title := "B", url := "u", snippet := [], query := "q", relevanceScore := 85 }
    (by decide)).2

/- ===================== Claim C1 ===================== -/

/-- Claim C1 counterexample: the pools are per-invocation, not shared
tree-wide. `witnessTiming` satisfies every constraint the code imposes
on the two-node scenario (each invocation's own pool of capacity
`scenarioConcurrencyLimit = 1` is respected), yet at instant 2 both the
child build call (holding the root pool's slot) and the child's own
relevance check (admitted by the child invocation's fresh pool) are in
flight: two operations tree-wide, exceeding the configured limit of
one. -/
theorem c1_shared_pool_counterexample :
    ValidScenarioTiming witnessTiming ∧
    opsInFlight witnessTiming 2 = 2 ∧
    scenarioConcurrencyLimit = 1 :=
  ⟨by decide, by decide, rfl⟩

/-- Claim C1 (amended): every invocation of `performDeepResearch`
creates its own fresh `pLimit(concurrencyLimit)` pool (research.ts line
520), so the bound is per invocation, not tree-wide. In every valid
timing of the two-node scenario, the two operations admitted by the
root invocation's pool (the root's relevance check and the child build
call) never overlap, respecting that pool's capacity of
`scenarioConcurrencyLimit = 1`; but tree-wide only the weaker bound
`scenarioConcurrencyLimit + 1` holds, because the child's operations
run inside the parent-pool slot its build call holds. -/
theorem c1_per_invocation_pools (tm : ScenarioTiming) (h : ValidScenarioTiming tm) (t : ℕ) :
    ((if activeAt tm.rootScore t then 1 else 0) +
      (if activeAt tm.childBuild t then 1 else 0) ≤ scenarioConcurrencyLimit) ∧
    opsInFlight tm t ≤ scenarioConcurrencyLimit + 1 := by
  obtain ⟨h1, h2, h3, h4, h5, h6, h7⟩ := h
  unfold opsInFlight scenarioConcurrencyLimit activeAt
  constructor <;> split_ifs <;> omega

/-- Witness for the amended C1 theorem: the realizable schedule
`witnessTiming` at the instant of maximal overlap. -/
theorem c1_per_invocation_pools_witness :
    ((if activeAt witnessTiming.rootScore 2 then 1 else 0) +
      (if activeAt witnessTiming.childBuild 2 then 1 else 0) ≤ scenarioConcurrencyLimit) ∧
    opsInFlight witnessTiming 2 ≤ scenarioConcurrencyLimit + 1 :=
  c1_per_invocation_pools witnessTiming (by decide) 2
